import Mathlib

/-
Verification development for the ranged-effect propagation engine in
src/crawl-ref/source/beam.cc (the `bolt` state machine: path propagation,
wall/actor interaction, tracer mode, range accounting, hit resolution,
flavour-specific damage scaling, and the explosion flood fill).

The C++ source is shallowly embedded: `bolt` becomes a Lean structure, the
ambient mutable world (terrain grid, occupant registry, player, items)
becomes an explicit `World` value threaded through the functions, global
random number draws become an explicit stream consumed via an index, and
user prompts (yesno / stop_attack_prompt) become an explicit answer stream.
Machine `int`s are embedded as `Int` (no arithmetic here approaches 2^31,
except the explicit INT_MAX initialisation of the explosion map, which is
kept as the literal constant).

Functions of the repository that live outside beam.cc (random.cc, ray.cc,
terrain.cc, beam.h constants, actor/monster methods) are not under src/;
where they are needed they are modelled from the spec and marked as such in
their doc comments.  External pluggable callbacks (damage_funcs, hit_funcs,
range_funcs, aoe_funcs) are modelled as pure functions supplied in a
parameter structure, following spec section 6 which treats them as
data-like hooks the engine consumes.
-/

namespace Crawl

/-- Grid coordinate (coord_def). -/
structure Coord where
  x : Int
  y : Int
deriving DecidableEq, Repr

instance : Add Coord := ⟨fun a b => ⟨a.x + b.x, a.y + b.y⟩⟩

/-- Chebyshev norm, coord_def::rdist() (modelled from the spec's
Chebyshev-distance description; coord_def lives outside beam.cc). -/
def Coord.rdist (c : Coord) : Int := max c.x.natAbs c.y.natAbs

/-- Squared euclidean norm, coord_def::abs(). -/
def Coord.abs2 (c : Coord) : Int := c.x * c.x + c.y * c.y

/-- Origin test, coord_def::origin(). -/
def Coord.origin (c : Coord) : Bool := c.x = 0 && c.y = 0

/-- Beam flavours (beam_type in beam.h, outside src/).  Only the
constructors that the embedded beam.cc code inspects are distinguished;
`otherReal` stands for any other non-enchantment flavour and `otherEnch`
for any other enchantment flavour. -/
inductive BeamType where
  | fire | cold | electricity | acid | poison | poisonArrow
  | neg | miasma | holy | ice | lava | hellfire | steam | spore | frag
  | missile | mmissile | digging | disintegration | nuke | visual
  | teleport | polymorph | haste | healing | invis | chaos | random
  | otherReal | otherEnch
deriving DecidableEq, Repr

/-- Modelled from the spec: the enum range test
BEAM_FIRST_ENCHANTMENT <= flavour <= BEAM_LAST_ENCHANTMENT from
bolt::is_enchantment (beam.h enum order is outside src/); the spec calls
these the "enchantment tags" of the closed flavour tag set. -/
def BeamType.isEnch : BeamType → Bool
  | .digging | .teleport | .polymorph | .haste | .healing | .invis
  | .otherEnch => true
  | _ => false

/-- Modelled from the spec: flavour <= BEAM_LAST_REAL (beam.h enum order is
outside src/): the non-pseudo flavours a real beam can have. -/
def BeamType.isReal : BeamType → Bool
  | .chaos | .random | .visual => false
  | _ => true

/-- Modelled from the spec: the sentinel "automatic hit" attack value
(AUTOMATIC_HIT in beam.h, outside src/).  The code only compares attack
values against it with equality, so its exact value is irrelevant; it is
kept as a named constant. -/
def AUTOMATIC_HIT : Int := 1500

/-- Modelled from the spec: BEAM_STOP (beam.h, outside src/), the range
cost that "consumes the entire remaining budget so it cannot continue past
its target" (spec section 3). -/
def BEAM_STOP : Int := 1000

/-- Modelled from the spec: the NON_MONSTER sentinel for beam_source,
meaning the thrower is not a monster (the player). -/
def NON_MONSTER : Int := -1

/-! ## Deferred random streams (defer_rand, from random.cc, outside src/)

Modelled from the spec: "each hit/defense comparison draws from its own
labeled random stream".  A node of the deferred tree memoises raw draws;
`random2 max` maps a raw draw into [0, max) for positive `max` (and is 0
otherwise), `random_range lo hi` maps it into [lo, hi], and
`random2avg max 2` averages two draws from [0, max). -/

structure DeferNode where
  v1 : Nat
  v2 : Nat
deriving DecidableEq, Repr

def DeferNode.random2 (n : DeferNode) (max : Int) : Int :=
  if max ≤ 0 then 0 else (n.v1 : Int) % max

def DeferNode.random_range (n : DeferNode) (lo hi : Int) : Int :=
  if hi < lo then lo else lo + (n.v1 : Int) % (hi - lo + 1)

def DeferNode.random2avg (n : DeferNode) (max : Int) : Int :=
  if max ≤ 0 then 0 else ((n.v1 : Int) % max + (n.v2 : Int) % max) / 2

/-- The three labeled sub-streams `r[0]`, `r[1]`, `r[2]` that
_test_beam_hit consumes from its defer_rand argument. -/
structure DeferRand where
  n0 : DeferNode
  n1 : DeferNode
  n2 : DeferNode
deriving DecidableEq, Repr

/-! ## _test_beam_hit (beam.cc lines 3505-3541) -/

/-- Embedding of the static `_test_beam_hit(attack, defence, is_beam,
deflect, repel, r)`: deflection and repulsion first rescale the attack
value through `r[0]`, then the sentinel AUTOMATIC_HIT is tested, then the
final comparison draws the attack roll from `r[1]` and the defence roll
from `r[2]`. -/
def testBeamHit (attack defence : Int) (is_beam deflect repel : Bool)
    (r : DeferRand) : Bool :=
  let attack :=
    if is_beam && deflect then
      r.n0.random2 (attack * 2) / 3
    else if is_beam && repel then
      (if attack ≥ 2 then r.n0.random_range ((attack + 1) / 2 + 1) attack
       else attack)
    else if deflect then
      r.n0.random2 (attack / 2)
    else if repel then
      r.n0.random2 attack
    else attack
  if attack = AUTOMATIC_HIT then
    true
  else
    let attack := r.n1.random2 attack
    let defence := r.n2.random2avg defence
    decide (attack ≥ defence)

/-! ## mons_adjust_flavoured (beam.cc lines 2297-2595)

The monster fields the function reads are collected in `MonsterR`;
`resist_adjust_damage` (from mon-stuff, outside src/) is passed in as an
abstract function `rad` of the flavour, the resistance level, the damage,
and the boolean last argument of each call site.  Messages and
side-effecting calls (simple_monster_message, poison_monster, drain_exp,
miasma_monster, did_god_conduct) are recorded as events; the `Bool`
argument `lucky` stands for the `!one_chance_in(3)` draw in the
BEAM_POISON branch, which is only consumed on the narrating path. -/

structure MonsterR where
  resFire : Int
  resCold : Int
  resElec : Int
  resAcid : Int
  resPoison : Int
  resSteam : Int
  resNeg : Int
  resRotting : Bool
  resHolyEnergy : Int
  isIcy : Bool
  isBush : Bool
  isBallistomycete : Bool
  hasLifeforce : Bool
  observable : Bool
deriving DecidableEq, Repr

inductive MFEvent where
  | msg (s : String)
  | poisonMonster (levels : Int)
  | drainExp
  | miasmaMonster
  | godConduct
  | obviousEffect
deriving DecidableEq, Repr

/-- Result of the embedded mons_adjust_flavoured: the final damage and the
events (messages / side effects) emitted along the way. -/
structure MFResult where
  hurted : Int
  events : List MFEvent
deriving DecidableEq, Repr

def monsAdjustFlavoured
    (rad : BeamType → Int → Int → Bool → Int)
    (mon : MonsterR) (flavour : BeamType) (youKill : Bool)
    (hurted : Int) (doFlavouredEffects : Bool) (lucky : Bool) : MFResult :=
  let original := hurted
  match flavour with
  | .fire | .steam =>
    let hurted := rad flavour
        (if flavour = .fire then mon.resFire else mon.resSteam) hurted true
    if hurted = 0 then
      { hurted := hurted
        events := if doFlavouredEffects then
            [.msg (if original > 0 then " completely resists."
                   else " appears unharmed.")] else [] }
    else if original > hurted then
      { hurted := hurted
        events := if doFlavouredEffects then [.msg " resists."] else [] }
    else if original < hurted && doFlavouredEffects then
      { hurted := hurted
        events :=
          if mon.isIcy then [.msg " melts!"]
          else if mon.isBush then [.msg " is on fire!"]
          else if flavour = .fire then [.msg " is burned terribly!"]
          else [.msg " is scalded terribly!"] }
    else { hurted := hurted, events := [] }
  | .cold =>
    let hurted := rad flavour mon.resCold hurted true
    if hurted = 0 then
      { hurted := hurted
        events := if doFlavouredEffects then
            [.msg (if original > 0 then " completely resists."
                   else " appears unharmed.")] else [] }
    else if original > hurted then
      { hurted := hurted
        events := if doFlavouredEffects then [.msg " resists."] else [] }
    else if original < hurted then
      { hurted := hurted
        events := if doFlavouredEffects then [.msg " is frozen!"] else [] }
    else { hurted := hurted, events := [] }
  | .electricity =>
    let hurted := rad flavour mon.resElec hurted true
    if hurted = 0 then
      { hurted := hurted
        events := if doFlavouredEffects then
            [.msg (if original > 0 then " completely resists."
                   else " appears unharmed.")] else [] }
    else { hurted := hurted, events := [] }
  | .acid =>
    let hurted := rad flavour mon.resAcid hurted true
    if hurted = 0 then
      { hurted := hurted
        events := if doFlavouredEffects then
            [.msg (if original > 0 then " completely resists."
                   else " appears unharmed.")] else [] }
    else { hurted := hurted, events := [] }
  | .poison =>
    let res := mon.resPoison
    let hurted := rad flavour res hurted true
    if hurted = 0 && res > 0 then
      { hurted := hurted
        events := if doFlavouredEffects then
            [.msg (if original > 0 then " completely resists."
                   else " appears unharmed.")] else [] }
    else if res ≤ 0 && doFlavouredEffects && lucky then
      { hurted := hurted, events := [.poisonMonster 1] }
    else { hurted := hurted, events := [] }
  | .poisonArrow =>
    let hurted := rad flavour mon.resPoison hurted false
    if hurted < original then
      { hurted := hurted
        events := if doFlavouredEffects then
            [.msg " partially resists."] ++
              (if mon.hasLifeforce then [.poisonMonster 2] else [])
          else [] }
    else if doFlavouredEffects then
      { hurted := hurted, events := [.poisonMonster 4] }
    else { hurted := hurted, events := [] }
  | .neg =>
    if mon.resNeg = 3 then
      { hurted := 0
        events := if doFlavouredEffects then
            [.msg " completely resists."] else [] }
    else if !doFlavouredEffects then
      -- early out if no side effects
      { hurted := hurted, events := [] }
    else
      { hurted := hurted
        events := (if mon.observable then [.obviousEffect] else []) ++
          [.drainExp] ++ (if youKill then [.godConduct] else []) }
  | .miasma =>
    if mon.resRotting then
      { hurted := 0
        events := if doFlavouredEffects then
            [.msg " completely resists."] else [] }
    else if !doFlavouredEffects then
      -- early out for tracer / no side effects
      { hurted := hurted, events := [] }
    else
      { hurted := hurted
        events := [.miasmaMonster] ++ (if youKill then [.godConduct] else []) }
  | .holy =>
    let rhe := mon.resHolyEnergy
    let hurted :=
      if rhe > 0 then 0
      else if rhe = 0 then hurted / 2
      else if rhe < -1 then (hurted * 3) / 2
      else hurted
    { hurted := hurted
      events := if doFlavouredEffects then
          [.msg (if hurted = 0 then " appears unharmed."
                 else " writhes in agony!")] else [] }
  | .ice =>
    let hurted := rad flavour mon.resCold hurted true
    if hurted < original then
      { hurted := hurted
        events := if doFlavouredEffects then
            [.msg " partially resists."] else [] }
    else if hurted > original then
      { hurted := hurted
        events := if doFlavouredEffects then [.msg " is frozen!"] else [] }
    else { hurted := hurted, events := [] }
  | .lava =>
    let hurted := rad flavour mon.resFire hurted true
    if hurted < original then
      { hurted := hurted
        events := if doFlavouredEffects then
            [.msg " partially resists."] else [] }
    else if hurted > original then
      { hurted := hurted
        events := if doFlavouredEffects then
            [.msg (if mon.isIcy then " melts!"
                   else " is burned terribly!")] else [] }
    else { hurted := hurted, events := [] }
  | .hellfire =>
    let resist := mon.resFire
    if resist > 2 then
      { hurted := 0
        events := if doFlavouredEffects then
            [.msg (if original > 0 then " completely resists."
                   else " appears unharmed.")] else [] }
    else if resist > 0 then
      { hurted := hurted / 2
        events := if doFlavouredEffects then
            [.msg " partially resists."] else [] }
    else if resist < 0 then
      { hurted := hurted * 12 / 10
        events := if doFlavouredEffects then
            [.msg (if mon.isIcy then " melts!"
                   else " is burned terribly!")] else [] }
    else { hurted := hurted, events := [] }
  | .spore =>
    if mon.isBallistomycete then { hurted := 0, events := [] }
    else { hurted := hurted, events := [] }
  | _ => { hurted := hurted, events := [] }

/-! ## Data model for the propagation state machine (bolt / world)

Dungeon features are modelled from the spec (terrain.cc predicates are
outside src/): walls, doors, statue-like features and the open features
that the embedded beam.cc code distinguishes. -/

inductive Feat where
  | floor | rockWall | clearRockWall | stoneWall | metalWall
  | greenCrystalWall | waxWall | trees | graniteStatue | orcishIdol
  | secretDoor | closedDoor | water | lavaSea
deriving DecidableEq, Repr

/-- Modelled from the spec: feat_is_wall (terrain.cc, outside src/) — the
wall-type features; statues, idols and doors are not walls. -/
def Feat.isWall : Feat → Bool
  | .rockWall | .clearRockWall | .stoneWall | .metalWall
  | .greenCrystalWall | .waxWall | .trees => true
  | _ => false

/-- Modelled from the spec: feat_is_solid (terrain.cc, outside src/) —
features that block movement: walls, statue-like features, and doors that
are closed or secret. -/
def Feat.isSolid : Feat → Bool
  | .graniteStatue | .orcishIdol | .secretDoor | .closedDoor => true
  | f => f.isWall

/-- Modelled from the spec: feat_is_closed_door (terrain.cc, outside src/). -/
def Feat.isClosedDoor : Feat → Bool
  | .closedDoor => true
  | _ => false

/-- Thrower category (kill_category / killer_type thrower field). -/
inductive KillT where
  | killYou | killYouMissile | killMon | killMonMissile | killMisc
deriving DecidableEq, Repr

/-- YOU_KILL macro (defines outside src/): thrower is the player. -/
def KillT.youKill : KillT → Bool
  | .killYou | .killYouMissile => true
  | _ => false

/-- MON_KILL macro (defines outside src/): thrower is a monster. -/
def KillT.monKill : KillT → Bool
  | .killMon | .killMonMissile => true
  | _ => false

/-- Monster / beam attitudes (mon_attitude_type). -/
inductive Attitude where
  | friendly | goodNeutral | neutral | hostile
deriving DecidableEq, Repr

/-- Modelled from the spec: mons_att_wont_attack (outside src/) — friendly
and good-neutral attitudes will not attack the player. -/
def Attitude.wontAttack : Attitude → Bool
  | .friendly | .goodNeutral => true
  | _ => false

/-- Modelled from the spec: mons_atts_aligned (outside src/) — two
attitudes are aligned when they are on the same side of the
will-attack-the-player divide. -/
def attsAligned (a b : Attitude) : Bool := a.wontAttack == b.wontAttack

/-- tracer_info: the friend/foe tallies accumulated by a tracer. -/
structure TracerInfo where
  count : Int := 0
  power : Int := 0
  hurt : Int := 0
  helped : Int := 0
  dont_stop : Bool := false
deriving DecidableEq, Repr

/-- dice_def: the num d size damage specification. -/
structure DiceDef where
  num : Int := 0
  size : Int := 0
deriving DecidableEq, Repr

/-- Modelled from the spec: ray_def (ray.cc, outside src/).  A ray is the
cell footprint of the straight (or bent) line the effect travels, with a
cursor; advance() steps the cursor forward one cell and regress() steps it
back one cell (spec section 4.1).  regress() at the start of the footprint
saturates (the C++ code never regresses past a valid start: callers
guarantee an open cell behind). -/
structure Ray where
  footprint : Nat → Coord
  cursor : Nat

def Ray.pos (r : Ray) : Coord := r.footprint r.cursor

def Ray.advance (r : Ray) : Ray := { r with cursor := r.cursor + 1 }

def Ray.regress (r : Ray) : Ray := { r with cursor := r.cursor - 1 }

/-- Static (per-firing-immutable) attributes of a monster read by the
embedded beam.cc code.  The mutable part (hit points, alive) lives in
`World`. -/
structure MonsterB where
  resists : MonsterR
  attitude : Attitude := .hostile
  power : Int := 0
  ac : Int := 0
  ev : Int := 0
  maxHP : Int := 1
  submerged : Bool := false
  invisible : Bool := false
  observable : Bool := true
  visibleToYou : Bool := true
  wallShielded : Bool := false
  isStatue : Bool := false
  isKirke : Bool := false
  shieldBonus : Int := 0
  shieldBlockPenalty : Int := 0
  shieldReflects : Bool := false
  isSummoned : Bool := false
  senseInvis : Bool := false
  backlit : Bool := false
  isFireVortex : Bool := false
  holinessNatural : Bool := true

/-- Player attributes read by the embedded code (you.*, player_* functions
outside src/ are modelled as these fields). -/
structure PlayerB where
  xl : Int := 1
  invisible : Bool := false
  goodGod : Bool := false
  resSteam : Int := 0
  resRotting : Bool := false
  protLife : Int := 0
  resPoison : Bool := false
  resElec : Bool := false
  clarity : Bool := false
  ac : Int := 0
  evasion : Int := 0
  shieldClass : Int := 0
  shieldBonus : Int := 0
  shieldBlockPenalty : Int := 0
  shieldReflects : Bool := false
  deflectMissiles : Bool := false
  repelMissiles : Bool := false
  backlit : Bool := false
  lightArmour : Bool := true
  hasShield : Bool := false
  evasionIgnorePhase : Int := 0
  evasionIgnoreHelpless : Int := 0

/-- The mutable ambient world: terrain grid, blood decals, clouds,
occupant registry and health, player health, and an abstract item/inventory
state version (bumped by any live item-affecting effect). -/
structure World where
  grd : Coord → Feat
  bloody : Coord → Bool
  cloud : Coord → Option Nat
  monsAt : Coord → Option Nat
  monsHP : Nat → Int
  monsAlive : Nat → Bool
  playerPos : Coord
  playerHP : Int
  items : Nat
  petTarget : Int
  sanctuaryTime : Int

/-- The propagation instance (struct bolt), restricted to the fields the
embedded functions read or write.  special_explosion is omitted (it runs
the same explode path on a child instance; none of the claims depend on
it). -/
structure Bolt where
  flavour : BeamType
  real_flavour : BeamType
  name : String := ""
  damage : DiceDef := {}
  ench_power : Int := 0
  hit : Int := 0
  thrower : KillT := .killMisc
  beam_source : Int := NON_MONSTER
  source : Coord := ⟨0, 0⟩
  target : Coord := ⟨0, 0⟩
  ray : Ray
  range : Int := 0
  range_used : Int := 0
  btype : Int := 35
  colour : Int := 0
  ex_size : Int := 0
  loudness : Int := 0
  is_beam : Bool := false
  is_explosion : Bool := false
  is_big_cloud : Bool := false
  is_tracer : Bool := false
  in_explosion_phase : Bool := false
  aimed_at_spot : Bool := false
  aimed_at_feet : Bool := false
  auto_hit : Bool := false
  use_target_as_pos : Bool := false
  passed_target : Bool := false
  beam_cancelled : Bool := false
  msg_generated : Bool := false
  obvious_effect : Bool := false
  seen : Bool := false
  heard : Bool := false
  affects_nothing : Bool := false
  affects_items : Bool := true
  can_see_invis : Bool := false
  dont_stop_player : Bool := false
  effect_known : Bool := true
  drop_item : Bool := false
  chose_ray : Bool := false
  hasItem : Bool := false
  wasMissile : Bool := false
  itemIsSummoned : Bool := false
  bounces : Int := 0
  reflections : Int := 0
  reflector : Int := -1
  bounce_pos : Coord := ⟨0, 0⟩
  attitude : Attitude := .hostile
  foe_info : TracerInfo := {}
  friend_info : TracerInfo := {}
  path_taken : List Coord := []

/-- Read-only environment: map geometry, monster data, the player, the
seeded random stream, the prompt-answer stream, and the pluggable callback
hooks of spec section 6 (modelled as pure functions). -/
structure Params where
  inBounds : Coord → Bool
  seeCell : Coord → Bool
  isSanctuary : Coord → Bool
  silenced : Coord → Bool
  playerCanHear : Coord → Bool
  monsData : Nat → MonsterB
  monsNear : Nat → Bool
  player : PlayerB
  rng : Nat → Nat
  answers : Nat → Bool
  rangeFuncs : List (Int → Int → Int × Bool) := []
  dmgFuncs : List (Int → Int → Int × Bool) := []
  hitFuncs : List (Int → Int → Bool) := []
  aoeFuncs : List (Coord → Bool) := []
  bounceRay : Ray → Ray
  mungeRay : Ray → Ray
  chooseRay : Coord → Coord → Ray → Ray
  radFn : BeamType → Int → Int → Bool → Int
  checkYourResists : Int → BeamType → Int
  checkResMagic : Int → Int → Bool
  exposeInv : Nat → Nat
  vetoDisintegrate : Coord → Bool
  noisyHeard : Coord → Bool
  nastyTo : Nat → Bool
  niceTo : Nat → Bool
  fedhasProtects : Nat → Bool
  originatorFedhas : Bool := false
  applyEnchWorld : Nat → World → World
  flavourSideFx : Nat → World → World
  postHitWorld : Nat → World → World
  explCloudsFx : Coord → World → World
  spawnFungus : Coord → World → World

/-- The full firing state: bolt, world, and the cursors into the random
and prompt-answer streams. -/
structure FS where
  b : Bolt
  w : World
  rix : Nat := 0
  aix : Nat := 0

/-- Draw random2(bound) from the seeded stream (random.cc is outside src/;
modelled from the spec's "pre-seeded random streams"). -/
def FS.rand (s : FS) (p : Params) (bound : Int) : Int × FS :=
  ((if bound ≤ 0 then 0 else (p.rng s.rix : Int) % bound),
   { s with rix := s.rix + 1 })

/-- Draw random_range(lo, hi) from the seeded stream. -/
def FS.randRange (s : FS) (p : Params) (lo hi : Int) : Int × FS :=
  ((if hi < lo then lo else lo + (p.rng s.rix : Int) % (hi - lo + 1)),
   { s with rix := s.rix + 1 })

/-- Consume the next user-prompt answer (yesno / stop_attack_prompt). -/
def FS.answer (s : FS) (p : Params) : Bool × FS :=
  (p.answers s.aix, { s with aix := s.aix + 1 })

/-- String containment, std::string::find(pat) != npos. -/
def strContains (s pat : String) : Bool := decide (List.IsInfix pat.data s.data)

/-! ## Small bolt predicates (beam.cc) -/

/-- bolt::is_enchantment (line 6184). -/
def Bolt.isEnchantment (b : Bolt) : Bool := b.flavour.isEnch

/-- bolt::is_fiery (line 3207). -/
def Bolt.isFiery (b : Bolt) : Bool :=
  b.flavour = .fire || b.flavour = .hellfire || b.flavour = .lava

/-- bolt::is_superhot (line 3214). -/
def Bolt.isSuperhot (b : Bolt) : Bool :=
  if !b.isFiery then false
  else
    b.name = "bolt of fire" || b.name = "bolt of magma" ||
    b.name = "fireball" ||
    (strContains b.name "hellfire" && b.in_explosion_phase)

/-- bolt::affects_wall (line 3226). -/
def Bolt.affectsWall (b : Bolt) (wall : Feat) : Bool :=
  if b.flavour = .digging then true
  else if b.flavour = .disintegration && b.damage.num ≥ 3 then true
  else if b.isFiery && (wall = .waxWall || wall = .trees) then true
  else if b.flavour = .nuke then true
  else if b.flavour = .frag then true
  else false

/-- bolt::is_bouncy (line 2955). -/
def Bolt.isBouncy (b : Bolt) (feat : Feat) : Bool :=
  if b.real_flavour = .chaos && feat.isSolid then true
  else if b.isEnchantment then false
  else if b.flavour = .electricity && feat ≠ .metalWall then true
  else if (b.flavour = .fire || b.flavour = .cold)
          && feat = .greenCrystalWall then true
  else false

/-- bolt::stop_at_target (line 3066). -/
def Bolt.stopAtTarget (b : Bolt) : Bool :=
  b.is_explosion || b.is_big_cloud || b.aimed_at_spot

/-- bolt::is_blockable (line 106). -/
def Bolt.isBlockable (b : Bolt) : Bool :=
  !b.is_beam && !b.is_explosion && b.flavour ≠ .electricity

/-- bolt::invisible (line 1528). -/
def Bolt.invisible (b : Bolt) : Bool := b.btype = 0 || b.isEnchantment

/-- bolt::pos (line 1914). -/
def Bolt.pos (b : Bolt) : Coord :=
  if b.in_explosion_phase || b.use_target_as_pos then b.target else b.ray.pos

/-- bolt::finish_beam (line 1893): consume the entire remaining budget. -/
def Bolt.finishBeam (b : Bolt) : Bolt := { b with range_used := b.range }

/-- bolt::beam_source_as_target (line 4353).  MHITYOU / MHITNOT sentinels
are modelled constants (outside src/). -/
def MHITYOU : Int := -10

def MHITNOT : Int := -11

def Bolt.beamSourceAsTarget (b : Bolt) : Int :=
  if b.thrower.monKill then b.beam_source
  else if b.thrower = .killMisc then MHITNOT
  else MHITYOU

/-! ## bolt::range_used_on_hit (beam.cc lines 5544-5580) -/

/-- The flavour-keyed base range cost of range_used_on_hit, before the
tracer adjustment and the range hooks. -/
def Bolt.rangeUsedOnHitBase (b : Bolt) : Int :=
  if !b.is_beam then BEAM_STOP
  else if b.isEnchantment then
    (if b.flavour = .digging then 0 else BEAM_STOP)
  else if strContains b.name "hellfire" then 0
  else if b.is_explosion || b.is_big_cloud then BEAM_STOP
  else if b.flavour = .acid then BEAM_STOP
  else if b.flavour = .electricity then 0
  else 1

/-- Apply the range_funcs hooks in order; a hook may rewrite the cost and
signal that the chain stops (the `break` in the source loop). -/
def applyRangeFuncs : List (Int → Int → Int × Bool) → Int → Int → Int
  | [], _, used => used
  | f :: rest, victim, used =>
    let r := f victim used
    if r.2 then r.1 else applyRangeFuncs rest victim r.1

/-- bolt::range_used_on_hit (line 5544). -/
def Bolt.rangeUsedOnHit (b : Bolt) (p : Params) (victim : Int) : Int :=
  let used := b.rangeUsedOnHitBase
  -- assume we didn't hit, after all
  if b.is_tracer && b.beam_source = NON_MONSTER && used = BEAM_STOP then 1
  else if b.in_explosion_phase then used
  else applyRangeFuncs p.rangeFuncs victim used

/-! ## Wall effects (beam.cc lines 1748-1911) -/

/-- bolt::digging_wall_effect (line 1748): rock walls become floor (with
blood decals cleared); any other wall ends the beam. -/
def diggingWallEffect (p : Params) (s : FS) : FS :=
  let feat := s.w.grd s.b.pos
  if feat = .rockWall || feat = .clearRockWall then
    let pos := s.b.pos
    let w := { s.w with
      grd := fun c => if c = pos then .floor else s.w.grd c
      bloody := fun c => if c = pos then false else s.w.bloody c }
    let b :=
      if !s.b.msg_generated then
        { s.b with
          obvious_effect :=
            if !p.silenced s.w.playerPos then true else s.b.obvious_effect
          msg_generated := true }
      else s.b
    { s with w := w, b := b }
  else if feat.isWall then
    { s with b := s.b.finishBeam }
  else s

/-- Cloud type tags (cloud_type, outside src/; modelled constants). -/
def CLOUD_FIRE : Nat := 1

def CLOUD_FOREST_FIRE : Nat := 2

def CLOUD_COLD : Nat := 3

def CLOUD_POISON : Nat := 4

def CLOUD_STEAM : Nat := 5

def CLOUD_MIASMA : Nat := 6

/-- Place a cloud of the given type at a cell (place_cloud, outside src/;
the rolled duration is drawn from the stream but not tracked). -/
def placeCloud (p : Params) (ty : Nat) (c : Coord) (s : FS) : FS :=
  let (_, s) := s.rand p 30
  { s with w := { s.w with
      cloud := fun c2 => if c2 = c then some ty else s.w.cloud c2 } }

/-- bolt::fire_wall_effect (line 1779): fire only affects wax walls and
trees, and destroys them only when the beam is superhot. -/
def fireWallEffect (p : Params) (s : FS) : FS :=
  let feat := s.w.grd s.b.pos
  if feat ≠ .waxWall && feat ≠ .trees then
    { s with b := s.b.finishBeam }
  else if feat = .waxWall then
    if !s.b.isSuperhot then
      -- no actual effect (message only)
      { s with b := s.b.finishBeam }
    else
      let pos := s.b.pos
      let s := { s with
        w := { s.w with grd := fun c => if c = pos then .floor else s.w.grd c } }
      let s := placeCloud p CLOUD_FIRE pos s
      { s with b := { s.b with obvious_effect := true }.finishBeam }
  else
    if s.b.isSuperhot then
      let pos := s.b.pos
      let s := { s with
        w := { s.w with grd := fun c => if c = pos then .floor else s.w.grd c } }
      let s := placeCloud p CLOUD_FOREST_FIRE pos s
      { s with b := { s.b with obvious_effect := true }.finishBeam }
    else
      { s with b := s.b.finishBeam }

/-- bolt::nuke_wall_effect (line 1838). -/
def nukeWallEffect (p : Params) (s : FS) : FS :=
  if p.vetoDisintegrate s.b.pos then { s with b := s.b.finishBeam }
  else
    let feat := s.w.grd s.b.pos
    let pos := s.b.pos
    if feat = .rockWall || feat = .waxWall || feat = .clearRockWall
        || feat = .graniteStatue then
      let w := { s.w with
        bloody := fun c => if c = pos then false else s.w.bloody c
        grd := fun c => if c = pos then .floor else s.w.grd c }
      let b := if p.playerCanHear pos then
          { s.b with obvious_effect := true } else s.b
      { s with w := w, b := b.finishBeam }
    else if feat = .orcishIdol then
      let w := { s.w with
        grd := fun c => if c = pos then .floor else s.w.grd c
        bloody := fun c => if c = pos then false else s.w.bloody c }
      { s with w := w, b := { s.b with obvious_effect := true }.finishBeam }
    else
      { s with b := s.b.finishBeam }

/-- bolt::affect_wall (line 1898): dispatch on flavour, then end the beam
if the cell is still solid.  Tracers never touch walls. -/
def affectWall (p : Params) (s : FS) : FS :=
  if s.b.is_tracer then s
  else
    let s :=
      if s.b.flavour = .digging then diggingWallEffect p s
      else if s.b.isFiery then fireWallEffect p s
      else if s.b.flavour = .disintegration || s.b.flavour = .nuke then
        nukeWallEffect p s
      else s
    if (s.w.grd s.b.pos).isSolid then { s with b := s.b.finishBeam } else s

/-! ## Bounce (beam.cc lines 1720-1738, 1475-1526) -/

/-- The `do regress while solid` loop at the head of bolt::bounce.  The
cursor is a Nat, so the model stops at the footprint start (the source
asserts an open cell exists behind). -/
def rayRegressOpen (w : World) (r : Ray) : Ray :=
  if (w.grd r.regress.pos).isSolid && r.regress.cursor ≠ 0 then
    rayRegressOpen w r.regress
  else r.regress
termination_by r.cursor
decreasing_by
  simp_all only [Ray.regress, Bool.and_eq_true, ne_eq, decide_eq_true_eq]
  omega

/-- bolt::bounce (line 1720) together with the range bookkeeping of
_munge_bounced_bolt (line 1475): regress out of the solid cell, record the
bounce position, reflect the ray (geometry supplied by the environment),
pay 2 extra range, and for chaos flavours perturb the ray and refund the
spent range. -/
def bounceStep (p : Params) (s : FS) : FS :=
  let oldRU := s.b.range_used
  let ray1 := rayRegressOpen s.w s.b.ray
  let ray2 := p.bounceRay ray1
  let b : Bolt := { s.b with
    ray := ray2
    bounce_pos := ray1.pos
    range_used := s.b.range_used + 2 }
  if b.real_flavour = .chaos then
    { s with b := { b with
        ray := p.mungeRay b.ray
        range := b.range + (b.range_used - oldRU) } }
  else
    { s with b := b }

/-! ## bolt::hit_wall (beam.cc lines 1923-2000) -/

/-- The `do regress while (pos != source and solid)` loop in hit_wall's
explosion/item-drop branch. -/
def rayRegressOpenOrSrc (w : World) (src : Coord) (r : Ray) : Ray :=
  if r.regress.pos ≠ src && (w.grd r.regress.pos).isSolid
      && r.regress.cursor ≠ 0 then
    rayRegressOpenOrSrc w src r.regress
  else r.regress
termination_by r.cursor
decreasing_by
  simp_all only [Ray.regress, Bool.and_eq_true, ne_eq, decide_eq_true_eq]
  omega

/-- bolt::hit_wall: returns (ended-due-to-wall, new state).  The
DET_WALL_HIT dungeon event (a notification to the event system) is not
part of the modelled world. -/
def hitWall (p : Params) (s : FS) : Bool × FS :=
  -- tracer warning prompt for a player whose line of fire is blocked
  let warn :=
    s.b.is_tracer && s.b.thrower.youKill && p.inBounds s.b.target
      && !s.b.passed_target && s.b.pos ≠ s.b.target && s.b.pos ≠ s.b.source
      && s.b.foe_info.count = 0 && s.b.flavour ≠ .digging
      && s.b.flavour.isReal && s.b.bounces = 0 && s.b.reflections = 0
      && p.seeCell s.b.target && !(s.w.grd s.b.target).isSolid
  let (cancelled, s) :=
    if warn then
      let (yes, s1) := s.answer p
      if !yes then
        (true,
         { s1 with b := { s1.b with beam_cancelled := true }.finishBeam })
      else (false, s1)
    else (false, s)
  if cancelled then (false, s)
  else if s.b.affectsWall (s.w.grd s.b.pos) then
    (false, affectWall p s)
  else if s.b.isBouncy (s.w.grd s.b.pos) && !s.b.in_explosion_phase then
    (false, bounceStep p s)
  else
    -- regress for explosions (blow up in an open cell) and item drops
    let s :=
      if s.b.pos ≠ s.b.source
          && ((s.b.is_explosion && !s.b.in_explosion_phase)
              || s.b.drop_item) then
        let ray1 := rayRegressOpenOrSrc s.w s.b.source s.b.ray
        let b : Bolt := { s.b with ray := ray1 }
        let b := if b.is_explosion && !b.is_tracer then
            { b with target := ray1.pos } else b
        { s with b := b }
      else s
    (true, { s with b := s.b.finishBeam })

/-! ## Player interaction (beam.cc lines 3473-4351) -/

/-- grid_distance (outside src/): modelled from the spec as the Chebyshev
cell distance. -/
def gridDistance (a b : Coord) : Int :=
  max (a.x - b.x).natAbs (a.y - b.y).natAbs

/-- bolt::found_player (line 3132). -/
def foundPlayer (p : Params) (s : FS) : Bool :=
  let needsFuzz := s.b.is_tracer && !s.b.can_see_invis
      && p.player.invisible && !s.b.thrower.youKill
  let dist : Int := if needsFuzz then 2 else 0
  gridDistance s.b.pos s.w.playerPos ≤ dist

/-- bolt::fuzz_invis_tracer (line 3473). -/
def fuzzInvisTracer (p : Params) (s : FS) : Bool × FS :=
  let dist := gridDistance s.b.target s.w.playerPos
  if dist > 2 then (false, s)
  else
    let beamSrc := s.b.beamSourceAsTarget
    if beamSrc ≠ MHITNOT && beamSrc ≠ MHITYOU && 0 ≤ beamSrc
        && (p.monsData beamSrc.toNat).senseInvis then
      (dist = 0, s)
    else
      let (fx, s) := s.randRange p (-2) 2
      let (fy, s) := s.randRange p (-2) 2
      let newtarget := s.b.target + ⟨fx, fy⟩
      let s := if p.inBounds newtarget then
          { s with b := { s.b with target := newtarget } } else s
      (true, s)

/-- bolt::harmless_to_player (line 3599).  The potion-cloud flavours are
not distinguished in the flavour model and fall to the default. -/
def harmlessToPlayer (p : Params) (b : Bolt) : Bool :=
  match b.flavour with
  | .visual | .digging => true
  | .haste | .healing | .invis => true
  | .holy => p.player.goodGod
  | .steam => p.player.resSteam ≥ 3
  | .miasma => p.player.resRotting
  | .neg => p.player.protLife ≥ 3
  | .poison => p.player.resPoison
  | .electricity => p.player.resElec
  | .fire | .cold | .acid => false
  | _ => false

/-- bolt::is_harmless for a monster (line 3554); the enchantment case
delegates to nasty_to (line 6006), which reads monster data outside the
modelled view and is supplied by the environment. -/
def isHarmlessMon (p : Params) (b : Bolt) (mi : Nat) : Bool :=
  if b.isEnchantment then !p.nastyTo mi
  else
    let mon := (p.monsData mi).resists
    match b.flavour with
    | .visual | .digging => true
    | .holy => mon.resHolyEnergy > 0
    | .steam => mon.resSteam ≥ 3
    | .fire => mon.resFire ≥ 3
    | .cold => mon.resCold ≥ 3
    | .miasma => mon.resRotting
    | .neg => mon.resNeg = 3
    | .electricity => mon.resElec ≥ 3
    | .poison => mon.resPoison ≥ 3
    | .acid => mon.resAcid ≥ 3
    | _ => false

/-- bolt::apply_dmg_funcs (line 2081): fold the damage hooks; a hook
returning true vetoes further resolution. -/
def applyDmgFuncs (fs : List (Int → Int → Int × Bool)) (victim : Int)
    (dmg : Int) : Int × Bool :=
  match fs with
  | [] => (dmg, true)
  | f :: rest =>
    let r := f victim dmg
    if r.2 then (r.1, false) else applyDmgFuncs rest victim r.1

/-- bolt::apply_hit_funcs (line 2072). -/
def applyHitFuncs (fs : List (Int → Int → Bool)) (victim : Int)
    (dmg : Int) : Bool :=
  fs.foldl (fun acc f => f victim dmg || acc) false

/-- bolt::reflect (line 3665) followed by choose_ray: retarget back toward
the source (or the last bounce point) and take a fresh ray. -/
def reflectStep (p : Params) (s : FS) : FS :=
  let b := s.b
  let newTarget := if b.bounces > 0 && p.inBounds b.bounce_pos then
      b.bounce_pos else b.source
  let reflector :=
    if b.pos = s.w.playerPos then NON_MONSTER
    else match s.w.monsAt b.pos with
      | some mi => (mi : Int)
      | none => -1
  let b : Bolt := { b with
    reflections := b.reflections + 1
    target := newTarget
    source := b.pos
    bounce_pos := ⟨0, 0⟩
    reflector := reflector
    flavour := b.real_flavour }
  { s with b := { b with ray := p.chooseRay b.source b.target b.ray } }

/-- bolt::tracer_affect_player (line 3700): update friend/foe tallies,
possibly prompt the player (aborting the tracer), and consume the on-hit
range cost.  Only bolt bookkeeping fields change. -/
def tracerAffectPlayer (p : Params) (s : FS) : FS :=
  let s :=
    if s.b.thrower.youKill then
      if !s.b.aimed_at_feet && !s.b.dont_stop_player
          && !harmlessToPlayer p s.b then
        let (yes, s1) := s.answer p
        if yes then
          { s1 with b := { s1.b with
              friend_info := { s1.b.friend_info with
                count := s1.b.friend_info.count + 1
                power := s1.b.friend_info.power + p.player.xl }
              dont_stop_player := true } }
        else
          { s1 with b := { s1.b with beam_cancelled := true }.finishBeam }
      else s
    else
      let (fuzzOk, s1) :=
        if s.b.can_see_invis || !p.player.invisible then (true, s)
        else fuzzInvisTracer p s
      if fuzzOk then
        if s1.b.attitude.wontAttack then
          { s1 with b := { s1.b with
              friend_info := { s1.b.friend_info with
                count := s1.b.friend_info.count + 1
                power := s1.b.friend_info.power + p.player.xl } } }
        else
          { s1 with b := { s1.b with
              foe_info := { s1.b.foe_info with
                count := s1.b.foe_info.count + 1
                power := s1.b.foe_info.power + p.player.xl } } }
      else s1
  -- apply_dmg_funcs / apply_hit_funcs with a zero dummy (hooks are pure
  -- in the model), then the on-hit range cost
  { s with b := { s.b with
      range_used := s.b.range_used + s.b.rangeUsedOnHit p MHITYOU } }

/-- dice_def::roll (outside src/): the sum of num rolls of
1 + random2(size), drawn from the seeded stream. -/
def diceRollN (p : Params) (num : Nat) (size : Int) (s : FS) : Int × FS :=
  match num with
  | 0 => (0, s)
  | n + 1 =>
    let (d, s) := s.rand p size
    let (rest, s) := diceRollN p n size s
    (1 + d + rest, s)

def diceRoll (p : Params) (d : DiceDef) (s : FS) : Int × FS :=
  diceRollN p d.num.toNat d.size s

/-- Build a defer_rand from the seeded stream: three labeled nodes, two
raw draws each. -/
def FS.deferRand (s : FS) (p : Params) : DeferRand × FS :=
  (⟨⟨p.rng s.rix, p.rng (s.rix + 1)⟩,
    ⟨p.rng (s.rix + 2), p.rng (s.rix + 3)⟩,
    ⟨p.rng (s.rix + 4), p.rng (s.rix + 5)⟩⟩,
   { s with rix := s.rix + 6 })

/-- The to-hit basis of misses_player (lines 3752-3765): halved against
an unseen invisible player, fuzzed up against a backlit one. -/
def mpToHit (p : Params) (s : FS) : Int × FS :=
  let real_tohit := if p.player.invisible && !s.b.can_see_invis then
      s.b.hit / 2 else s.b.hit
  if p.player.backlit then
    let (r8, s) := s.rand p 8
    (real_tohit + 2 + r8, s)
  else (real_tohit, s)

/-- The shield-block clause of misses_player (lines 3767-3793). -/
def mpBlocked (p : Params) (s : FS) : Bool × FS :=
  if s.b.isBlockable && p.player.hasShield && !s.b.aimed_at_feet
      && p.player.shieldClass > 0 then
    let (testhit, s) :=
      s.rand p (s.b.hit * 130 / 100 + p.player.shieldBlockPenalty)
    if testhit < p.player.shieldBonus then
      -- is_reflectable: shield of reflection with budget remaining
      if s.b.range_used < s.b.range && p.player.shieldReflects then
        (true, reflectStep p s)
      else (true, { s with b := s.b.finishBeam })
    else (false, s)
  else (false, s)

/-- bolt::misses_player (line 3748), live mode: shield block / reflection,
then the chain of _test_beam_hit comparisons over one defer_rand.  The
skill-exercise draws are presentation-level and not modelled. -/
def missesPlayer (p : Params) (s : FS) : Bool × FS :=
  if s.b.is_explosion || s.b.aimed_at_feet || s.b.auto_hit
      || s.b.isEnchantment then (false, s)
  else
    let dodge := p.player.evasion
    let dodge_less := p.player.evasionIgnorePhase
    let th := mpToHit p s
    let real_tohit := th.1
    let s := th.2
    if !s.b.is_beam && !s.b.isBlockable then (false, s)
    else
      let bl := mpBlocked p s
      let blocked := bl.1
      let s := bl.2
      if blocked then (true, s)
      else
        let (r, s) := s.deferRand p
        let dmsl := p.player.deflectMissiles
        let rmsl := dmsl || p.player.repelMissiles
        if !(testBeamHit real_tohit dodge_less s.b.is_beam false false r) then
          (true, s)
        else if !(testBeamHit real_tohit dodge_less s.b.is_beam false rmsl r) then
          (true, s)
        else if !(testBeamHit real_tohit dodge_less s.b.is_beam dmsl rmsl r) then
          (true, s)
        else if !(testBeamHit real_tohit dodge s.b.is_beam dmsl rmsl r) then
          (true, s)
        else
          -- the final helpless-dodge comparison only selects a message
          (false, s)

/-- bolt::has_saving_throw (line 5082). -/
def Bolt.hasSavingThrow (b : Bolt) : Bool :=
  if b.aimed_at_feet then false
  else match b.flavour with
    | .haste | .healing | .invis => false
    | _ => true

/-- bolt::affect_player_enchantment (line 3862): the magic-resistance
saving throw gates the enchantment; both outcomes consume the on-hit
range cost.  The per-flavour player status changes of the unresisted
branch (lines 3892-4107) are live-only and outside the modelled world
(player status effects are not part of terrain/health/inventory); the
hurt/helped tallies of that branch are likewise collapsed. -/
def affectPlayerEnchantment (p : Params) (s : FS) : FS :=
  let (roll, s) := s.rand p 100
  let resisted := s.b.flavour ≠ .polymorph && s.b.hasSavingThrow
      && p.checkResMagic s.b.ench_power roll
  if resisted then
    { s with b := { s.b with
        range_used := s.b.range_used + s.b.rangeUsedOnHit p MHITYOU } }
  else
    { s with b := { s.b with
        range_used := s.b.range_used + s.b.rangeUsedOnHit p MHITYOU } }

/-- The post-roll damage resolution of the live player branch
(lines 4209-4351), applied to the rolled pre-hook damage. -/
def lapdCore (p : Params) (hurted0 : Int) (s : FS) : FS :=
    let engulfs := s.b.is_explosion || s.b.is_big_cloud
    let dmgRes := applyDmgFuncs p.dmgFuncs MHITYOU hurted0
    let hurted := dmgRes.1
    let (adr, s) := s.rand p (1 + p.player.ac)
    let adr := if s.b.flavour = .electricity then adr / 2 else adr
    let hurted := hurted - adr
    let (hurted, s) :=
      if s.b.flavour = .frag && !p.player.lightArmour then
        let (a1, s) := s.rand p (1 + p.player.ac)
        let (a2, s) := s.rand p (1 + p.player.ac)
        (hurted - a1 - a2, s)
      else (hurted, s)
    let hurted := max 0 hurted
    -- bleeding on the floor for physical missiles
    let s :=
      if !engulfs && (s.b.flavour = .missile || s.b.flavour = .mmissile) then
        let pos := s.b.pos
        { s with w := { s.w with
            bloody := fun c => if c = pos then true else s.w.bloody c } }
      else s
    let hurted := p.checkYourResists hurted s.b.flavour
    -- item destruction from elemental exposure
    let s :=
      if s.b.affects_items
          && (s.b.flavour = .lava || strContains s.b.name "hellfire"
              || (s.b.flavour = .fire && s.b.name ≠ "ball of steam")
              || s.b.flavour = .cold
              || (s.b.in_explosion_phase && s.b.flavour = .spore)) then
        { s with w := { s.w with items := p.exposeInv s.w.items } }
      else s
    let wasAffected := applyHitFuncs p.hitFuncs MHITYOU hurted
    let s :=
      if hurted > 0 || wasAffected then
        if s.b.attitude.wontAttack then
          { s with b := { s.b with friend_info :=
              { s.b.friend_info with hurt := s.b.friend_info.hurt + 1 } } }
        else
          { s with b := { s.b with foe_info :=
              { s.b.foe_info with hurt := s.b.foe_info.hurt + 1 } } }
      else s
    -- internal_ouch
    let s := { s with w := { s.w with playerHP := s.w.playerHP - hurted } }
    { s with b := { s.b with
        range_used := s.b.range_used + s.b.rangeUsedOnHit p MHITYOU } }

/-- The live (non-tracer, non-enchantment) branch of bolt::affect_player
(lines 4181-4351).  Damage rolling, hooks, armour mitigation, resist
scaling, floor blood, item exposure, hurt tallies and the final ouch are
embedded; xom/skill/conduct notifications and the status side effects
(nets, curare, sticky flame, confusion) are presentation-level or player
status and are not part of the modelled world. -/
def liveAffectPlayerDamage (p : Params) (s : FS) : FS :=
  let s := { s with b := { s.b with msg_generated := true } }
  let mp := missesPlayer p s
  if mp.1 then mp.2
  else
    let hr := diceRoll p mp.2.b.damage mp.2
    lapdCore p hr.1 hr.2

/-- bolt::affect_player (line 4149). -/
def affectPlayer (p : Params) (s : FS) : FS :=
  if s.b.is_explosion && !s.b.in_explosion_phase then
    { s with b := s.b.finishBeam }
  else if s.b.flavour = .digging then s
  else if s.b.is_tracer then tracerAffectPlayer p s
  else if s.b.isEnchantment then affectPlayerEnchantment p s
  else liveAffectPlayerDamage p s

/-! ## Monster interaction (beam.cc lines 4360-5080) -/

/-- bolt::can_affect_wall_monster (line 1428). -/
def canAffectWallMonster (p : Params) (s : FS) (mi : Nat) : Bool :=
  if s.b.isEnchantment then true
  else
    let superconductor := s.w.grd s.b.pos = .metalWall
        && s.b.flavour = .electricity
    if (p.monsData mi).wallShielded && !superconductor then false
    else if !s.b.is_explosion && !s.b.is_big_cloud then true
    else false

/-- bolt::update_hurt_or_helped (line 4360); xom notifications are
presentation-level. -/
def updateHurtOrHelped (p : Params) (mi : Nat) (s : FS) : FS :=
  let aligned := attsAligned s.b.attitude (p.monsData mi).attitude
  if !aligned then
    if p.nastyTo mi then
      { s with b := { s.b with foe_info :=
          { s.b.foe_info with hurt := s.b.foe_info.hurt + 1 } } }
    else if p.niceTo mi then
      { s with b := { s.b with foe_info :=
          { s.b.foe_info with helped := s.b.foe_info.helped + 1 } } }
    else s
  else
    if p.nastyTo mi then
      { s with b := { s.b with friend_info :=
          { s.b.friend_info with hurt := s.b.friend_info.hurt + 1 } } }
    else if p.niceTo mi then
      { s with b := { s.b with friend_info :=
          { s.b.friend_info with helped := s.b.friend_info.helped + 1 } } }
    else s

/-- The submerged-monster branch of determine_damage (lines 4470-4488):
(skip the monster?, adjusted pre-AC damage, state). -/
def ddSubmerged (p : Params) (mi : Nat) (preac : Int) (s : FS) :
    Bool × Int × FS :=
  if (p.monsData mi).submerged then
    if !s.b.aimed_at_spot then (true, preac, s)
    else if s.b.flavour = .electricity then
      (true, preac, { s with b := s.b.finishBeam })
    else (false, preac * 2 / 3, s)
  else (false, preac, s)

/-- The hook / submerged / armour tail of determine_damage
(lines 4452-4504), applied to the rolled pre-hook damage. -/
def ddCore (p : Params) (mi : Nat) (preac0 : Int) (s : FS) :
    Option (Int × Int × Int) × FS :=
  let mon := p.monsData mi
  let dmgRes := applyDmgFuncs p.dmgFuncs (mi : Int) preac0
  if !dmgRes.2 then (none, s)
  else
    let t := ddSubmerged p mi dmgRes.1 s
    if t.1 then (none, t.2.2)
    else
      let preac := t.2.1
      let s := t.2.2
      -- maybe_random2(1 + ac, !is_tracer)
      let (ac1, s) := if s.b.is_tracer then ((1 + mon.ac) / 2, s)
        else s.rand p (1 + mon.ac)
      let postac := preac - ac1
      let (postac, s) :=
        if s.b.flavour = .frag then
          let (a1, s) := if s.b.is_tracer then ((1 + mon.ac) / 2, s)
            else s.rand p (1 + mon.ac)
          let (a2, s) := if s.b.is_tracer then ((1 + mon.ac) / 2, s)
            else s.rand p (1 + mon.ac)
          (postac - a1 - a2, s)
        else (postac, s)
      let postac := max postac 0
      let final := (monsAdjustFlavoured p.radFn mon.resists s.b.flavour
          s.b.thrower.youKill postac false true).hurted
      (some (preac, postac, final), s)

/-- bolt::determine_damage (line 4418): returns none when the monster
should be skipped, otherwise (preac, postac, final).  Tracers take the
dice mean and the deterministic half of the armour roll; the final value
comes from the silent (flavoured-effects-disabled) resist scaling. -/
def determineDamage (p : Params) (mi : Nat) (s : FS) :
    Option (Int × Int × Int) × FS :=
  let mon := p.monsData mi
  -- Fedhas worshippers fire through allied plants
  if !s.b.isEnchantment && s.b.attitude = mon.attitude
      && p.originatorFedhas && p.fedhasProtects mi then
    (none, s)
  else
    let pr :=
      if s.b.is_tracer then ((s.b.damage.num * (s.b.damage.size + 1)) / 2, s)
      else diceRoll p s.b.damage s
    ddCore p mi pr.1 pr.2

/-- bolt::handle_stop_attack_prompt (line 4507). -/
def handleStopAttackPrompt (p : Params) (mi : Nat) (s : FS) : FS :=
  if (s.b.thrower = .killYouMissile || s.b.thrower = .killYou)
      && !isHarmlessMon p s.b mi then
    if (s.b.friend_info.count = 1 && !s.b.friend_info.dont_stop)
        || (s.b.foe_info.count = 1 && !s.b.foe_info.dont_stop) then
      let (stop, s) := s.answer p
      if stop then
        { s with b := { s.b with beam_cancelled := true }.finishBeam }
      else
        if s.b.friend_info.count = 1 then
          { s with b := { s.b with friend_info :=
              { s.b.friend_info with dont_stop := true } } }
        else if s.b.foe_info.count = 1 then
          { s with b := { s.b with foe_info :=
              { s.b.foe_info with dont_stop := true } } }
        else s
    else s
  else s

/-- bolt::tracer_enchantment_affect_monster (line 4395). -/
def tracerEnchantmentAffectMonster (p : Params) (mi : Nat) (s : FS) : FS :=
  let mon := p.monsData mi
  let s :=
    if !attsAligned s.b.attitude mon.attitude then
      { s with b := { s.b with foe_info := { s.b.foe_info with
          count := s.b.foe_info.count + 1
          power := s.b.foe_info.power + mon.power } } }
    else
      { s with b := { s.b with friend_info := { s.b.friend_info with
          count := s.b.friend_info.count + 1
          power := s.b.friend_info.power + mon.power } } }
  let s := handleStopAttackPrompt p mi s
  if !s.b.beam_cancelled then
    { s with b := { s.b with
        range_used := s.b.range_used + s.b.rangeUsedOnHit p (mi : Int) } }
  else s

/-- bolt::tracer_nonenchantment_affect_monster (line 4531). -/
def tracerNonenchantmentAffectMonster (p : Params) (mi : Nat) (s : FS) : FS :=
  let dd := determineDamage p mi s
  match dd.1 with
  | none => dd.2
  | some (preac, _, final) =>
    let s := dd.2
    let mon := p.monsData mi
    let s :=
      if final > 0 then
        if !attsAligned s.b.attitude mon.attitude then
          { s with b := { s.b with foe_info := { s.b.foe_info with
              power := s.b.foe_info.power + 2 * final * mon.power / preac
              count := s.b.foe_info.count + 1 } } }
        else
          { s with b := { s.b with friend_info := { s.b.friend_info with
              power := s.b.friend_info.power + 2 * final * mon.power / preac
              count := s.b.friend_info.count + 1 } } }
      else s
    let s := handleStopAttackPrompt p mi s
    if s.b.beam_cancelled then s
    else
      { s with b := { s.b with
          range_used := s.b.range_used + s.b.rangeUsedOnHit p (mi : Int) } }

/-- bolt::tracer_affect_monster (line 4578). -/
def tracerAffectMonster (p : Params) (mi : Nat) (s : FS) : FS :=
  -- ignore unseen monsters
  if !(p.monsData mi).visibleToYou
      || (s.b.thrower.youKill && !p.seeCell s.b.pos) then s
  else if s.b.is_explosion && !s.b.in_explosion_phase then
    { s with b := s.b.finishBeam }
  else if s.b.isEnchantment then tracerEnchantmentAffectMonster p mi s
  else tracerNonenchantmentAffectMonster p mi s

/-- bolt::attempt_block (line 4720), live mode. -/
def attemptBlock (p : Params) (mi : Nat) (s : FS) : Bool × FS :=
  let mon := p.monsData mi
  if mon.shieldBonus > 0 then
    let (ht, s) := s.rand p (s.b.hit * 130 / 100 + mon.shieldBlockPenalty)
    if ht < mon.shieldBonus then
      if s.b.range_used < s.b.range && mon.shieldReflects then
        (true, reflectStep p s)
      else
        (true, { s with b := s.b.finishBeam })
    else (false, s)
  else (false, s)

/-- bolt::handle_statue_disintegration (line 4762), live mode. -/
def handleStatueDisintegration (p : Params) (mi : Nat) (s : FS) :
    Bool × FS :=
  if (s.b.flavour = .disintegration || s.b.flavour = .nuke)
      && (p.monsData mi).isStatue then
    let s := { s with b := { s.b with obvious_effect := true } }
    let s := updateHurtOrHelped p mi s
    -- mon->hurt(agent(), INSTANT_DEATH)
    let s := { s with w := { s.w with
        monsHP := fun j => if j = mi then 0 else s.w.monsHP j
        monsAlive := fun j => if j = mi then false else s.w.monsAlive j } }
    (true, { s with b := s.b.finishBeam })
  else (false, s)

/-- bolt::enchantment_affect_monster (line 4600), live mode.  The
behaviour events, animation, and the enchantment application switch
(try_enchant_monster / apply_enchantment_to_monster, lines 5164-5540)
mutate monster status outside the modelled world view; the latter is
collapsed into the environment's applyEnchWorld transform.  The range
bookkeeping and tallies are embedded. -/
def enchantmentAffectMonster (p : Params) (mi : Nat) (s : FS) : FS :=
  if (p.monsData mi).submerged then s
  else
    let (_, s) := s.rand p 100  -- the enchantment's saving-throw draw
    let s := { s with w := p.applyEnchWorld mi s.w }
    let s := if s.w.monsAlive mi then updateHurtOrHelped p mi s else s
    { s with b := { s.b with
        range_used := s.b.range_used + s.b.rangeUsedOnHit p (mi : Int) } }

/-- The post-block tail of the live monster branch (lines 4995-5078):
tallies, noise, the narrating resist scaling (side effects collapsed into
flavourSideFx), floor blood, the hurt, and the on-hit range cost. -/
def lamPostHit (p : Params) (mi : Nat) (postac final : Int) (s : FS) :
    FS :=
  let mon := p.monsData mi
  let engulfs := s.b.is_explosion || s.b.is_big_cloud
  let s := updateHurtOrHelped p mi s
  let s := if !s.b.is_explosion then
      { s with b := { s.b with
          heard := p.noisyHeard s.b.pos || s.b.heard } }
    else s
  -- narrating resist scaling: the returned value is discarded,
  -- only the side effects land (collapsed into flavourSideFx)
  let s := { s with w := p.flavourSideFx mi s.w }
  let s :=
    if !engulfs
        && (s.b.flavour = .missile || s.b.flavour = .mmissile)
        && !mon.isSummoned && !mon.submerged then
      let pos := s.b.pos
      { s with w := { s.w with
          bloody := fun c => if c = pos then true
            else s.w.bloody c } }
    else s
  -- mon->hurt(agent(), final, flavour, false)
  let newHP := s.w.monsHP mi - final
  let s := { s with w := { s.w with
      monsHP := fun j => if j = mi then newHP else s.w.monsHP j
      monsAlive := fun j => if j = mi then newHP > 0
        else s.w.monsAlive j } }
  let s :=
    if s.w.monsAlive mi then
      { s with w := p.postHitWorld mi s.w }
    else s
  -- postac is the raw-damage basis for the floor blood above;
  -- keep the dependency explicit
  let _ := postac
  { s with b := { s.b with range_used :=
      s.b.range_used + s.b.rangeUsedOnHit p (mi : Int) } }

/-- The hit resolution of the live monster branch (lines 4942-4994):
spore confusion, to-hit roll against evasion, shield block, then the
post-block tail. -/
def lamResolve (p : Params) (mi : Nat) (postac final : Int) (s : FS) :
    FS :=
  let mon := p.monsData mi
  let engulfs := s.b.is_explosion || s.b.is_big_cloud
  -- engulfing spore explosions confuse natural monsters
  let s :=
    if engulfs && s.b.flavour = .spore && mon.holinessNatural then
      { s with w := p.applyEnchWorld mi s.w }
    else s
  let beam_hit := if mon.invisible && !s.b.can_see_invis then
      s.b.hit / 2 else s.b.hit
  let (beam_hit, s) :=
    if mon.backlit then
      let (r8, s) := s.rand p 8
      (beam_hit + 2 + r8, s)
    else (beam_hit, s)
  let (r, s) := s.deferRand p
  let (rand_ev, s) := s.rand p mon.ev
  let dmsl := mon.isKirke
  if !engulfs
      && !(testBeamHit beam_hit rand_ev s.b.is_beam dmsl false r) then
    s
  else
    let bl :=
      if !engulfs && s.b.isBlockable then attemptBlock p mi s
      else (false, s)
    if bl.1 then bl.2
    else lamPostHit p mi postac final bl.2

/-- The live (non-tracer) tail of bolt::affect_monster
(lines 4836-5080): to-hit resolution, shield block, the narrating resist
scaling (side effects collapsed into flavourSideFx), floor blood, damage,
death, hooks and the on-hit range cost.  God-conduct and message handling
are presentation-level. -/
def liveAffectMonster (p : Params) (mi : Nat) (s : FS) : FS :=
  let mon := p.monsData mi
  if s.b.flavour = .visual then s
  else
    let sd := handleStatueDisintegration p mi s
    if sd.1 then sd.2
    else
      let s := sd.2
      if s.b.isEnchantment then enchantmentAffectMonster p mi s
      else if mon.submerged && !s.b.aimed_at_spot then s
      else if s.b.is_explosion && !s.b.in_explosion_phase then
        { s with b := s.b.finishBeam }
      else
        let dd := determineDamage p mi s
        match dd.1 with
        | none => dd.2
        | some (_, postac, final) => lamResolve p mi postac final dd.2

/-- bolt::affect_monster (line 4795). -/
def affectMonster (p : Params) (mi : Nat) (s : FS) : FS :=
  if !s.w.monsAlive mi then s
  else if s.b.flavour = .digging then s
  else if (p.monsData mi).resists.isBush && !s.b.is_beam && !s.b.is_explosion
      && (s.b.flavour = .missile || s.b.flavour = .mmissile) then s
  else if s.b.name = "great blast of fire"
      && (p.monsData mi).isFireVortex then s
  else if s.b.is_tracer then tracerAffectMonster p mi s
  else liveAffectMonster p mi s

/-! ## Cell interaction (beam.cc lines 1740-2070, 3141-3332) -/

/-- bolt::fake_flavour (line 1740): random and chaos beams pick a concrete
flavour per cell.  The enum ranges drawn from (BEAM_FIRE..BEAM_ACID, and
the chaos table at line 1447) are mapped onto the modelled flavour
constructors; weights in the chaos table are uniform. -/
def fakeFlavour (p : Params) (s : FS) : FS :=
  if s.b.real_flavour = .random then
    let (i, s) := s.rand p 6
    let f := [BeamType.fire, .cold, .electricity, .poison, .neg,
              .acid].getD i.toNat .fire
    { s with b := { s.b with flavour := f } }
  else if s.b.real_flavour = .chaos then
    let (i, s) := s.rand p 19
    let f := [BeamType.fire, .cold, .electricity, .poison, .neg, .acid,
              .hellfire, .otherReal, .otherEnch, .haste, .otherEnch,
              .otherEnch, .healing, .otherEnch, .otherEnch, .invis,
              .polymorph, .otherEnch, .disintegration].getD i.toNat .fire
    { s with b := { s.b with flavour := f } }
  else s

/-- bolt::affect_place_clouds (line 3249), live mode: polymorph rewrites
an existing cloud, fire/cold cancel opposing clouds at an extra range cost
of 5, and various flavours/names seed new clouds.  The explosion-phase
cloud placement (affect_place_explosion_clouds, line 3334) is collapsed
into the environment's explCloudsFx transform. -/
def affectPlaceClouds (p : Params) (s : FS) : FS :=
  let s := if s.b.in_explosion_phase then
      { s with w := p.explCloudsFx s.b.pos s.w } else s
  let pos := s.b.pos
  match s.w.cloud pos with
  | some ctype =>
    if s.b.flavour = .polymorph then
      let (i, s) := s.rand p 8
      let newType := 1 + i.toNat
      if newType = ctype then s
      else
        { s with
          w := { s.w with cloud := fun c =>
              if c = pos then some newType else s.w.cloud c }
          b := if pos = s.w.playerPos || p.seeCell pos then
              { s.b with obvious_effect := true } else s.b }
    else if (ctype = CLOUD_COLD
          && (s.b.flavour = .fire || s.b.flavour = .lava))
        || (ctype = CLOUD_FIRE && s.b.flavour = .cold) then
      { s with
        w := { s.w with cloud := fun c =>
            if c = pos then none else s.w.cloud c }
        b := { s.b with range_used := s.b.range_used + 5 } }
    else s
  | none =>
    let feat := s.w.grd pos
    let s := if s.b.name = "blast of poison" then
        placeCloud p CLOUD_POISON pos s else s
    let s := if (feat = .lavaSea && s.b.flavour = .cold)
        || (feat = .water && s.b.isFiery) then
        placeCloud p CLOUD_STEAM pos s else s
    let s := if feat = .water && s.b.flavour = .cold
        && s.b.damage.num * s.b.damage.size > 35 then
        placeCloud p CLOUD_COLD pos s else s
    let s := if s.b.name = "great blast of cold" then
        placeCloud p CLOUD_COLD pos s else s
    let s := if s.b.name = "ball of steam" then
        placeCloud p CLOUD_STEAM pos s else s
    let s := if s.b.flavour = .miasma then
        placeCloud p CLOUD_MIASMA pos s else s
    let s := if s.b.name = "poison gas" then
        placeCloud p CLOUD_POISON pos s else s
    s

/-- bolt::affect_ground (line 3141): tracers do nothing; live spore
explosions may spawn a fungus; item-affecting effects expose items and
seed clouds. -/
def affectGround (p : Params) (s : FS) : FS :=
  if s.b.is_explosion && !s.b.in_explosion_phase then s
  else if s.b.is_tracer then s
  else
    let s :=
      if s.b.is_explosion && s.b.flavour = .spore then
        let (roll, s) := s.rand p 21
        if roll < 2 && s.w.grd s.b.pos = .floor
            && (s.w.monsAt s.b.pos).isNone && s.w.playerPos ≠ s.b.pos then
          { s with w := p.spawnFungus s.b.pos s.w }
        else s
      else s
    if s.b.affects_items then
      let s := { s with w := { s.w with items := p.exposeInv s.w.items } }
      affectPlaceClouds p s
    else s

/-- The monster clause of bolt::affect_cell (lines 2058-2062): a monster
on the cell is affected unless a single-target (non-beam, non-explosion)
effect already hit the player here, the cell is still a wall, or the
thrower's own monster is being avoided on the first step. -/
def affectCellMonsterPass (hitPlayer stillWall avoidMonster : Bool)
    (b : Bolt) : Bool :=
  (!hitPlayer || b.is_beam || b.is_explosion) && !stillWall && !avoidMonster

/-- The solid-cell clause of bolt::affect_cell (lines 2023-2045): a
monster standing in the wall is affected if the effect can reach it (else
"The wall protects it from harm"), then the wall itself is hit; the flag
reports whether the beam ended at this wall. -/
def acWallPhase (p : Params) (avoidMonster : Bool) (s : FS) : Bool × FS :=
  let s :=
    match s.w.monsAt s.b.pos with
    | some mi =>
      if canAffectWallMonster p s mi && !avoidMonster then
        affectMonster p mi s
      else s  -- ("The wall protects it from harm" message)
    | none => s
  hitWall p s

/-- The player clause of bolt::affect_cell (lines 2050-2055). -/
def acPlayerPhase (p : Params) (avoidPlayer : Bool) (s : FS) : Bool × FS :=
  if foundPlayer p s && !avoidPlayer then (true, affectPlayer p s)
  else (false, s)

/-- The monster clause of bolt::affect_cell (lines 2058-2062). -/
def acMonsterPhase (p : Params)
    (hitPlayer stillWall avoidMonster : Bool) (s : FS) : FS :=
  if affectCellMonsterPass hitPlayer stillWall avoidMonster s.b then
    match s.w.monsAt s.b.pos with
    | some mi => affectMonster p mi s
    | none => s
  else s

/-- The non-wall tail of bolt::affect_cell: player, monster, ground. -/
def acPostWall (p : Params)
    (avoidPlayer avoidMonster stillWall : Bool) (s : FS) : FS :=
  let hp := acPlayerPhase p avoidPlayer s
  let s := acMonsterPhase p hp.1 stillWall avoidMonster hp.2
  if !(s.w.grd s.b.pos).isSolid then affectGround p s else s

/-- bolt::affect_cell (line 2002): the per-cell interaction resolver.
Order: cloud accuracy penalty, flavour resolution, solid-cell handling
(wall monster, wall effects / bounce), player, monster, ground. -/
def affectCell (p : Params) (avoidSelf : Bool) (s : FS) : FS :=
  let s := if (s.w.cloud s.b.pos).isSome then
      { s with b := { s.b with hit := max (s.b.hit - 2) 0 } } else s
  let s := fakeFlavour p s
  let oldPos := s.b.pos
  let wasSolid := (s.w.grd s.b.pos).isSolid
  let avoidPlayer := avoidSelf && s.b.thrower.youKill
  let avoidMonster := avoidSelf && s.b.thrower.monKill
  let ws : Bool × FS :=
    if wasSolid then acWallPhase p avoidMonster s else (false, s)
  if ws.1 then ws.2
  else
    acPostWall p avoidPlayer avoidMonster
      (wasSolid && oldPos = ws.2.b.pos) ws.2

/-! ## Explosion flood fill (beam.cc lines 5932-5996)

bolt::determine_affected_cells is a DFS over the 19x19 explosion map with
a shared minimal-cost grid.  The embedding is parameterised by the order
in which the eight compass neighbours are explored, so that claim C9
(order independence) can be stated; the source uses the fixed Compass
order.  The environment data it reads (map bounds, sanctuary, the terrain
grid, the beam's affects_wall at the centre, and the aoe_funcs membership
hooks) is collected in ExplEnv. -/

structure ExplEnv where
  center : Coord
  r : Nat
  mapBounds : Coord → Bool
  sanct : Coord → Bool
  grd : Coord → Feat
  affectsWallAt : Coord → Bool
  hits : Coord → Bool
  stopAtStatues : Bool
  stopAtWalls : Bool

def INT_MAX : Int := 2147483647

/-- The explosion map is indexed by delta + centre with centre = (9,9). -/
def centre9 : Coord := ⟨9, 9⟩

/-- The eight compass directions (Compass array, outside src/; the order
is the canonical one, and C9 shows the result does not depend on it). -/
def compass8 : List Coord :=
  [⟨0, -1⟩, ⟨1, -1⟩, ⟨1, 0⟩, ⟨1, 1⟩, ⟨0, 1⟩, ⟨-1, 1⟩, ⟨-1, -1⟩, ⟨-1, 0⟩]

/-- The wall / statue blocking tests of determine_affected_cells
(lines 5952-5964): a wall-ish feature blocks when stop_at_walls is set,
except a wall at the detonation centre that the beam itself affects; a
solid non-wall (statue-like) feature blocks when stop_at_statues is set. -/
def dacBlocked (env : ExplEnv) (delta : Coord) : Bool :=
  let feat := env.grd (env.center + delta)
  ((feat.isWall || feat = .secretDoor || feat.isClosedDoor)
      && env.stopAtWalls
      && !(delta.origin && env.affectsWallAt (env.center + delta)))
  || (feat.isSolid && !feat.isWall && env.stopAtStatues)

/-- The early-return tests of determine_affected_cells (lines 5940-5964),
merged into one predicate: the edge-case guards (radius, cost cutoff,
map bounds, sanctuary) together with the blocking tests. -/
def dacOut (env : ExplEnv) (delta : Coord) (count : Nat) : Bool :=
  decide ((9 : Int) < delta.rdist)
  || decide ((env.r : Int) * (env.r + 1) < delta.abs2)
  || decide (10 * env.r < count)
  || !env.mapBounds (env.center + delta)
  || env.sanct (env.center + delta)
  || dacBlocked env delta

/-- Changing direction costs 17, continuing costs 5 (lines 5988-5991). -/
def dacCadd (delta dir : Coord) : Nat :=
  if delta.x * dir.x < 0 || delta.y * dir.y < 0 then 17 else 5

theorem dacCadd_ge (delta dir : Coord) : 5 ≤ dacCadd delta dir := by
  unfold dacCadd
  split <;> omega

theorem dacOut_false_count {env : ExplEnv} {delta : Coord} {count : Nat}
    (h : dacOut env delta count = false) : count ≤ 10 * env.r := by
  unfold dacOut at h
  simp only [Bool.or_eq_false_iff, decide_eq_false_iff_not, not_lt] at h
  exact h.1.1.1.2

/-- The map update of determine_affected_cells (lines 5967-5974): when
the cell passes every aoe_funcs callback, store the minimum of the
incoming count and the stored cost. -/
def dacWrite (env : ExplEnv) (m : Coord → Int) (delta : Coord)
    (count : Nat) : Coord → Int :=
  if env.hits (env.center + delta) then
    fun c => if c = delta + centre9 then
      min (count : Int) (m (delta + centre9)) else m c
  else m

mutual

/-- bolt::determine_affected_cells (line 5932): on an admissible cell,
record the minimum of the incoming count and the stored cost, then
explore the neighbours in the given order. -/
def dac (env : ExplEnv) (ord : List Coord) (m : Coord → Int)
    (delta : Coord) (count : Nat) : Coord → Int :=
  if h : dacOut env delta count = true then m
  else
    dacNbrs env ord ord (dacWrite env m delta count) delta count
      (dacOut_false_count (eq_false_of_ne_true h))
termination_by (10 * env.r + 1 - count, ord.length + 1)
decreasing_by
  apply Prod.Lex.right
  omega

/-- The neighbour loop of determine_affected_cells (lines 5977-5995):
skip neighbours beyond the map radius or already covered at a cost no
greater than the current one; recurse into the rest at count + cadd. -/
def dacNbrs (env : ExplEnv) (ord ds : List Coord) (m : Coord → Int)
    (delta : Coord) (count : Nat) (h : count ≤ 10 * env.r) : Coord → Int :=
  match ds with
  | [] => m
  | dir :: rest =>
    let nd := delta + dir
    let m2 :=
      if (9 : Int) < nd.rdist then m
      else if m (nd + centre9) ≤ (count : Int) then m
      else dac env ord m nd (count + dacCadd delta dir)
    dacNbrs env ord rest m2 delta count h
termination_by (10 * env.r + 1 - count, ds.length)
decreasing_by
  · simp_wf
    apply Prod.Lex.left
    have := dacCadd_ge delta dir
    omega
  · simp_wf
    apply Prod.Lex.right
    omega

end

/-! ## bolt::explode and endpoint processing (beam.cc lines 3014-3129,
5585-5929) -/

/-- The _radial_sweep ring at the given radius (line 5727). -/
def ringDeltas (rad : Nat) : List Coord :=
  if rad = 0 then [⟨0, 0⟩]
  else
    ((List.range (2 * rad + 1)).map (fun j => (j : Int) - rad)).flatMap
      fun d =>
        (if d ≠ (rad : Int) && d ≠ -(rad : Int) then
          [⟨-(rad : Int), d⟩, ⟨(rad : Int), d⟩] else [])
        ++ [⟨d, -(rad : Int)⟩, ⟨d, (rad : Int)⟩]

/-- All sweep deltas out to radius r, in concentric ring order. -/
def sweepDeltas (r : Nat) : List Coord :=
  (List.range (r + 1)).flatMap ringDeltas

/-- bolt::explosion_affect_cell (line 5917): point the bolt at the cell,
run the cell resolver, then restore flavour and target. -/
def explosionAffectCell (p : Params) (c : Coord) (s : FS) : FS :=
  let origTarget := s.b.target
  let s := fakeFlavour p s
  let s := { s with b := { s.b with target := c } }
  let s := affectCell p false s
  { s with b := { s.b with flavour := s.b.real_flavour
                           target := origTarget } }

/-- The body of bolt::explode past the sanctuary check (lines 5774-5858):
live explosions make noise, then the flood fill runs from the detonation
centre and the effect is applied to every reached cell in concentric
order (the draw pass and the cells_seen return value are presentation). -/
def explodeCore (p : Params) (r : Nat) (s : FS) : FS :=
  let s := if !s.b.is_tracer then
      { s with b := { s.b with
          loudness := 10 + 5 * (r : Int)
          heard := s.b.heard || p.noisyHeard s.b.pos } }
    else s
  let env : ExplEnv := {
    center := s.b.pos
    r := r
    mapBounds := p.inBounds
    sanct := p.isSanctuary
    grd := s.w.grd
    affectsWallAt := fun c => s.b.affectsWall (s.w.grd c)
    hits := fun c => p.aoeFuncs.all (fun f => f c)
    stopAtStatues := true
    stopAtWalls := true }
  let expMap := dac env compass8 (fun _ => INT_MAX) ⟨0, 0⟩ 0
  (sweepDeltas r).foldl
    (fun s delta =>
      if expMap (delta + centre9) < INT_MAX then
        explosionAffectCell p (env.center + delta) s
      else s)
    s

/-- bolt::explode (line 5760): fix the flavour, cap the radius at
MAX_EXPLOSION_RADIUS = 9, and unless the detonation centre is a
sanctuary, run the explosion body. -/
def explode (p : Params) (s : FS) : FS :=
  let b := s.b
  let b : Bolt :=
    if b.real_flavour = .chaos || b.real_flavour = .random then
      { b with flavour := b.real_flavour }
    else { b with real_flavour := b.flavour }
  let r := min b.ex_size.toNat 9
  let b := { b with in_explosion_phase := true }
  let s := { s with b := b }
  if p.isSanctuary s.b.pos then s
  else explodeCore p r s

/-- bolt::refine_for_explosion (line 5585): ensure a positive radius and
mark the message as generated.  The name-keyed table (lines 5599-5722)
rewrites presentation fields and the flavour of a few named effects; it is
not modelled. -/
def refineForExplosion (s : FS) : FS :=
  { s with b := { s.b with
      ex_size := if s.b.ex_size = 0 then 1 else s.b.ex_size
      msg_generated := true } }

/-- bolt::drop_object (line 3071): live missiles land (or are destroyed);
the item state version is bumped. -/
def dropObject (s : FS) : FS :=
  if s.b.is_tracer || !s.b.wasMissile then s
  else { s with w := { s.w with items := s.w.items + 1 } }

/-- bolt::affect_endpoint (line 3014).  special_explosion is omitted (see
Bolt); the big_cloud placements of the live name-keyed specials are
modelled as single-cell cloud seeds. -/
def affectEndpoint (p : Params) (s : FS) : FS :=
  let s := if s.b.drop_item && s.b.hasItem then dropObject s else s
  if s.b.is_explosion then
    let s := refineForExplosion s
    let s := { s with b := { s.b with target := s.b.pos } }
    explode p s
  else if s.b.is_tracer then s
  else
    let s :=
      if s.b.name = "orb of electricity" || s.b.name = "metal orb"
          || s.b.name = "great blast of cold" then
        let s := { s with b := { s.b with target := s.b.pos } }
        let s := refineForExplosion s
        explode p s
      else s
    let s := if s.b.name = "blast of poison" then
        placeCloud p CLOUD_POISON s.b.pos s else s
    let s := if s.b.name = "foul vapour" then
        placeCloud p CLOUD_MIASMA s.b.pos s else s
    let s := if s.b.name = "freezing blast" then
        placeCloud p CLOUD_COLD s.b.pos s else s
    s

/-! ## The fire loop (beam.cc lines 1533-1645, 2111-2293) -/

/-- bolt::initialise_fire (line 1533): reset the per-firing state, detect
self-targeting, default the range.  LOS_RADIUS = 8 (modelled constant,
outside src/). -/
def initialiseFire (p : Params) (s : FS) : FS :=
  let b := s.b
  let b : Bolt := { b with
    range_used := 0
    in_explosion_phase := false
    use_target_as_pos := false }
  let b := if b.chose_ray && b.source = ⟨0, 0⟩ then
      { b with source := b.ray.pos } else b
  let b : Bolt := if b.target = b.source then
      { b with
        range := 0
        aimed_at_feet := true
        auto_hit := true
        aimed_at_spot := true
        use_target_as_pos := true }
    else b
  let b := if b.range = -1 then { b with range := 8 } else b
  let b := { b with real_flavour := b.flavour }
  let b := if !b.seen && p.seeCell b.source && b.range > 0
      && !b.invisible then { b with seen := true } else b
  let b := if p.seeCell b.source && b.target = b.source
      && !b.invisible then { b with seen := true } else b
  { s with b := b }

/-- The post-loop bounds recovery of do_fire (lines 2239-2249): regress
until back on the map, at most max(GXM, GYM) = 80 tries (map dimensions
are modelled constants, outside src/). -/
def regressInBounds (p : Params) : Nat → Ray → Ray
  | 0, r => r
  | t + 1, r => if !(p.inBounds r.pos) then regressInBounds p t r.regress
      else r

/-- Result of one iteration of the do_fire loop: continue to the next
cell, break (endpoint processing follows), or return on cancellation
(endpoint processing is skipped). -/
inductive StepRes where
  | cont (s : FS)
  | brk (s : FS)
  | ret (s : FS)

/-- The interaction phase of one loop iteration (lines 2191-2197):
record the cell on the path, resolve the cell, and apply the loop's own
range consumption — one unit, skipped on an avoid-self first step. -/
def fireInteract (p : Params) (avoidSelf : Bool) (s : FS) : FS :=
  let s := { s with b := { s.b with
      path_taken := s.b.path_taken ++ [s.b.pos] } }
  let s := if !s.b.affects_nothing then affectCell p avoidSelf s else s
  if !avoidSelf then
    { s with b := { s.b with range_used := s.b.range_used + 1 } }
  else s

/-- The control tail of one do_fire loop iteration after the cell
interaction (lines 2199-2236): range check, cancellation check, target
bookkeeping and stop, visibility, chaos re-roll, ray advance. -/
def fireStepPost (p : Params) (s : FS) : StepRes :=
  if s.b.range_used ≥ s.b.range then .brk s
  else if s.b.beam_cancelled then .ret s
  else
    let s := if s.b.pos = s.b.target then
        { s with b := { s.b with passed_target := true } } else s
    if s.b.pos = s.b.target && s.b.stopAtTarget then .brk s
    else
      let s := if !s.b.seen && s.b.range > 0 && !s.b.invisible
          && p.seeCell s.b.pos then
          { s with b := { s.b with seen := true } } else s
      let s := if s.b.real_flavour = .chaos then
          { s with b := { s.b with flavour := s.b.real_flavour } }
        else s
      .cont { s with b := { s.b with ray := s.b.ray.advance } }

/-- One iteration of the while loop of bolt::do_fire (lines 2189-2237). -/
def fireStep (p : Params) (avoidSelf : Bool) (s : FS) : StepRes :=
  if !(p.inBounds s.b.pos) then .brk s
  else fireStepPost p (fireInteract p avoidSelf s)

/-- The while loop of bolt::do_fire: iterate fireStep; avoid-self holds at
most for the first iteration.  Returns the state and whether the loop
exited through the beam_cancelled return.  Fuel bounds the recursion;
every continuing iteration increments range_used, so range + 2 steps of
fuel suffice. -/
def doFireLoop (p : Params) : Nat → Bool → FS → FS × Bool
  | 0, _, s => (s, false)
  | fuel + 1, avoidSelf, s =>
    match fireStep p avoidSelf s with
    | .brk s => (s, false)
    | .ret s => (s, true)
    | .cont s => doFireLoop p fuel false s

/-- The initial avoid-self flag of do_fire (line 2174): true exactly when
the effect is not aimed at the caster's own cell and is not an explosion
already in its explosion phase. -/
def doFireAvoidSelf (b : Bolt) : Bool :=
  !b.aimed_at_feet && (!b.is_explosion || !b.in_explosion_phase)

/-- The post-loop tail of bolt::do_fire (lines 2239-2293): recover
bounds, process the endpoint, and (live only) let friendlies react by
retargeting the player's pet target. -/
def doFirePost (p : Params) (s : FS) : FS :=
  let s := if !(p.inBounds s.b.pos) then
      { s with b := { s.b with ray := regressInBounds p 80 s.b.ray } }
    else s
  let s := if !s.b.affects_nothing then affectEndpoint p s else s
  if s.b.is_tracer || s.b.affects_nothing then s
  else
    -- xom reactions are notifications; the pet-target reaction:
    if 0 ≤ s.b.beam_source && s.b.foe_info.hurt > 0
        && !(p.monsData s.b.beam_source.toNat).attitude.wontAttack
        && s.w.petTarget = MHITNOT && s.w.sanctuaryTime ≤ 0 then
      { s with w := { s.w with petTarget := s.b.beam_source } }
    else s

/-- The ray choice of do_fire (lines 2176-2188): unless the effect is
aimed at the caster's feet, a ray is chosen when none was pre-chosen or
after a reflection. -/
def doFireRay (p : Params) (s : FS) : FS :=
  if !s.b.aimed_at_feet then
    (if !s.b.chose_ray || s.b.reflections > 0 then
      { s with b := { s.b with
          ray := p.chooseRay s.b.source s.b.target s.b.ray } }
     else s)
  else s

/-- The body of bolt::do_fire past the spent-range early return (lines
2170-2293): choose the ray, run the loop, then unless the loop returned
on cancellation, run the post-loop tail. -/
def doFireMain (p : Params) (fuel : Nat) (s : FS) : FS :=
  -- apply_beam_conducts (line 1647) is a god-conduct notification
  let avoidSelf := doFireAvoidSelf s.b
  let s := { s with b := { s.b with msg_generated := false } }
  let s := doFireRay p s
  let res := doFireLoop p fuel avoidSelf s
  if res.2 then res.1
  else doFirePost p res.1

/-- bolt::do_fire (line 2147): initialise, then unless the range is
already spent, run the main body. -/
def doFire (p : Params) (fuel : Nat) (s : FS) : FS :=
  let s := initialiseFire p s
  if s.b.range ≤ s.b.range_used && s.b.range > 0 then s
  else doFireMain p fuel s

/-- _undo_tracer (line 2096): restore the bolt fields a tracer run is
allowed to scribble on. -/
def undoTracer (orig copy : Bolt) : Bolt :=
  { orig with
    target := copy.target
    source := copy.source
    aimed_at_spot := copy.aimed_at_spot
    range_used := copy.range_used
    auto_hit := copy.auto_hit
    ray := copy.ray
    colour := copy.colour
    flavour := copy.flavour
    real_flavour := copy.real_flavour }

/-- bolt::fire (line 2111): tracers run do_fire on the live state and
then roll the scribbled bolt fields back from a saved copy
(tracer-via-mutate-then-undo); live firings just run do_fire. -/
def fire (p : Params) (fuel : Nat) (s : FS) : FS :=
  let s := { s with b := { s.b with path_taken := [] } }
  if s.b.is_tracer then
    let copy := s.b
    let s1 := doFire p fuel s
    { s1 with b := undoTracer s1.b copy }
  else doFire p fuel s

/-! ## Concrete fixtures for witnesses and counterexamples -/

/-- A straight eastward ray footprint starting at (1,1). -/
def rayTest : Ray := ⟨fun n => ⟨(n : Int) + 1, 1⟩, 0⟩

def monTestR : MonsterR :=
  { resFire := 0, resCold := 0, resElec := 0, resAcid := 0, resPoison := 0
    resSteam := 0, resNeg := 0, resRotting := false, resHolyEnergy := 0
    isIcy := false, isBush := false, isBallistomycete := false
    hasLifeforce := true, observable := true }

def monTest : MonsterB := { resists := monTestR }

def worldTest : World :=
  { grd := fun _ => .floor
    bloody := fun _ => false
    cloud := fun _ => none
    monsAt := fun _ => none
    monsHP := fun _ => 10
    monsAlive := fun _ => true
    playerPos := ⟨50, 50⟩
    playerHP := 20
    items := 0
    petTarget := MHITNOT
    sanctuaryTime := 0 }

def pTest : Params :=
  { inBounds := fun c => 0 < c.x && c.x < 60 && 0 < c.y && c.y < 60
    seeCell := fun _ => false
    isSanctuary := fun _ => false
    silenced := fun _ => false
    playerCanHear := fun _ => true
    monsData := fun _ => monTest
    monsNear := fun _ => false
    player := {}
    rng := fun _ => 0
    answers := fun _ => true
    bounceRay := id
    mungeRay := id
    chooseRay := fun _ _ r => r
    radFn := fun _ _ d _ => d
    checkYourResists := fun d _ => d
    checkResMagic := fun _ _ => false
    exposeInv := id
    vetoDisintegrate := fun _ => false
    noisyHeard := fun _ => false
    nastyTo := fun _ => true
    niceTo := fun _ => false
    fedhasProtects := fun _ => false
    applyEnchWorld := fun _ w => w
    flavourSideFx := fun _ w => w
    postHitWorld := fun _ w => w
    explCloudsFx := fun _ w => w
    spawnFungus := fun _ w => w }

def boltTest : Bolt := { flavour := .missile, real_flavour := .missile
                         ray := rayTest }

/-! ## Claim C7: the automatic-hit sentinel -/

/-- C7 counterexample: with a deflection defensive effect active, an
attack value equal to the sentinel AUTOMATIC_HIT can miss: the sentinel
test comes after the deflection rescaling of the attack value, so the
rescaled attack (here 0, against a defence roll of 4) loses.  This
refutes "always results in a hit ... regardless of any deflection or
repulsion defensive effect". -/
theorem testBeamHit_auto_hit_deflected_misses :
    testBeamHit AUTOMATIC_HIT 5 false true false
      ⟨⟨0, 0⟩, ⟨0, 0⟩, ⟨4, 4⟩⟩ = false := by decide

/-- C7 (amended): an attack value equal to the sentinel AUTOMATIC_HIT
always results in a hit regardless of the defence value, provided the
target has no deflection or repulsion defensive effect (those rescale the
attack value before the sentinel test, so the sentinel can be lost). -/
theorem testBeamHit_auto_hit_no_deflect (defence : Int) (is_beam : Bool)
    (r : DeferRand) :
    testBeamHit AUTOMATIC_HIT defence is_beam false false r = true := by
  simp [testBeamHit]

/-! ## Claim C10: tracer range cost for a player-thrown beam -/

/-- C10: in tracer mode with the player as thrower (beam_source is the
NON_MONSTER sentinel), a hit whose flavour-keyed range cost would be the
entire remaining range (BEAM_STOP) costs 1 instead, so the tracer
continues past the actor instead of stopping where the live firing
would. -/
theorem rangeUsedOnHit_tracer_player_continues (p : Params) (b : Bolt)
    (victim : Int) (h1 : b.is_tracer = true)
    (h2 : b.beam_source = NON_MONSTER)
    (h3 : b.rangeUsedOnHitBase = BEAM_STOP) :
    b.rangeUsedOnHit p victim = 1 := by
  simp [Bolt.rangeUsedOnHit, h1, h2, h3]

theorem rangeUsedOnHit_tracer_player_continues_witness :
    ({ boltTest with is_tracer := true } : Bolt).rangeUsedOnHit pTest 0
      = 1 :=
  rangeUsedOnHit_tracer_player_continues pTest _ 0 rfl rfl (by decide)

/-! ## Claim C5: distinct occupants of a shared cell -/

/-- C5: on a shared cell that is not a wall (and with no first-step
self-avoidance), once the player has been affected, a co-located monster
is still affected exactly when the effect is a continuous beam or an
explosion; a single-target effect that already hit the player on the cell
does not affect the monster.  affectCellMonsterPass is the guard
affect_cell places on its monster interaction. -/
theorem affectCell_shared_cell_occupants (b : Bolt) :
    affectCellMonsterPass true false false b
      = (b.is_beam || b.is_explosion) := by
  simp [affectCellMonsterPass]

/-! ## Claim C8: silent vs narrating resistance scaling -/

/-- C8: for any non-enchantment flavour, victim and pre-mitigation
damage, the silent resistance-scaling evaluation (flavoured effects
disabled) is independent of the random draw — two silent calls give the
same full result — and the narrating evaluation (flavoured effects
enabled) resolves the same final numeric damage as the silent one,
differing only in the emitted events. -/
theorem monsAdjustFlavoured_silent_narrating
    (rad : BeamType → Int → Int → Bool → Int) (mon : MonsterR)
    (fl : BeamType) (yk : Bool) (hurted : Int) (l1 l2 : Bool)
    (_hne : fl.isEnch = false) :
    monsAdjustFlavoured rad mon fl yk hurted false l1
      = monsAdjustFlavoured rad mon fl yk hurted false l2
    ∧ (monsAdjustFlavoured rad mon fl yk hurted true l1).hurted
      = (monsAdjustFlavoured rad mon fl yk hurted false l2).hurted := by
  constructor <;>
    cases fl <;>
      simp only [monsAdjustFlavoured, Bool.and_false, Bool.false_and,
        Bool.and_true, Bool.true_and, Bool.not_true, Bool.not_false,
        if_false, if_true, Bool.false_eq_true] <;>
      split_ifs <;> simp_all

theorem monsAdjustFlavoured_silent_narrating_witness :
    monsAdjustFlavoured (fun _ _ d _ => d) monTestR .fire false 7 false true
      = monsAdjustFlavoured (fun _ _ d _ => d) monTestR .fire false 7
          false false
    ∧ (monsAdjustFlavoured (fun _ _ d _ => d) monTestR .fire false 7
          true true).hurted
      = (monsAdjustFlavoured (fun _ _ d _ => d) monTestR .fire false 7
          false false).hurted :=
  monsAdjustFlavoured_silent_narrating _ monTestR .fire false 7 true false
    (by decide)

/-! ## Claim C4: stopping at the nominal target -/

def StepRes.isBrk : StepRes → Bool
  | .brk _ => true
  | _ => false

/-- C4: when the loop reaches its nominal target with range remaining and
no cancellation, the iteration breaks exactly when the effect is
configured to stop at its target, and that configuration is exactly the
explosion, large-cloud, and aimed-at-spot (single-target) kinds. -/
theorem fireStep_stop_at_target_iff (p : Params) (av : Bool) (s : FS)
    (hin : p.inBounds s.b.pos = true)
    (hrange : (fireInteract p av s).b.range_used
      < (fireInteract p av s).b.range)
    (hcancel : (fireInteract p av s).b.beam_cancelled = false)
    (htarget : (fireInteract p av s).b.pos = (fireInteract p av s).b.target) :
    ((fireStep p av s).isBrk = (fireInteract p av s).b.stopAtTarget)
    ∧ ∀ b : Bolt, b.stopAtTarget
        = (b.is_explosion || b.is_big_cloud || b.aimed_at_spot) := by
  refine ⟨?_, fun b => rfl⟩
  unfold fireStep
  generalize fireInteract p av s = t at hrange hcancel htarget ⊢
  rw [hin]
  simp only [Bool.not_true, Bool.false_eq_true, if_false]
  unfold fireStepPost
  simp only [ge_iff_le, if_neg (not_le.mpr hrange), hcancel, htarget,
    if_pos rfl]
  cases hst : t.b.stopAtTarget <;>
    simp_all [StepRes.isBrk, Bolt.stopAtTarget, Bolt.pos]

def sC4 : FS :=
  { b := { boltTest with
      affects_nothing := true
      range := 5
      target := ⟨1, 1⟩
      aimed_at_spot := true
      thrower := .killYouMissile }
    w := worldTest }

theorem fireStep_stop_at_target_iff_witness :
    ((fireStep pTest false sC4).isBrk
      = (fireInteract pTest false sC4).b.stopAtTarget)
    ∧ ∀ b : Bolt, b.stopAtTarget
        = (b.is_explosion || b.is_big_cloud || b.aimed_at_spot) :=
  fireStep_stop_at_target_iff pTest false sC4 (by decide) (by decide)
    (by decide) (by decide)

/-! ## Claim C3: per-step range consumption and the free first step -/

def sFeet : FS :=
  { b := { boltTest with
      source := ⟨1, 1⟩
      target := ⟨1, 1⟩
      affects_nothing := true
      range := 5
      thrower := .killYouMissile }
    w := worldTest }

/-- C3 counterexample: a firing aimed at the caster's own cell/feet DOES
consume range on its initial (and only) step: do_fire leaves
range_used = 1 (initialise_fire set range = 0 for the self-targeted
firing), refuting "the first step is free exactly when the effect is
aimed at the caster's own cell". -/
theorem doFire_aimed_at_feet_consumes :
    (doFire pTest 5 sFeet).b.range_used = 1
    ∧ (doFire pTest 5 sFeet).b.aimed_at_feet = true := by decide

/-- Extract the continuation state of a step result. -/
def contState : StepRes → FS → FS
  | .cont s, _ => s
  | _, d => d

/-- C3 (amended): each loop iteration applies the loop's own range
consumption of exactly one unit, except that the consumption is skipped
when the avoid-self flag holds; the loop passes avoid-self as false to
every iteration after the first; and do_fire's initial avoid-self flag
holds exactly when the effect is NOT aimed at the caster's own cell (and
is not an explosion already in its explosion phase) — the polarity is
opposite to the claim.  Cell interactions may consume additional range,
so the per-step consumption is stated for interaction-free effects. -/
theorem fireStep_consumption (p : Params) (av : Bool) (s : FS) (fuel : Nat)
    (t : FS) (hnothing : s.b.affects_nothing = true)
    (hcont : fireStep p av s = .cont t) :
    ((fireInteract p av s).b.range_used
        = s.b.range_used + (if av then 0 else 1))
    ∧ doFireLoop p (fuel + 1) av s = doFireLoop p fuel false t
    ∧ ∀ b : Bolt, doFireAvoidSelf b
        = (!b.aimed_at_feet && (!b.is_explosion || !b.in_explosion_phase)) := by
  refine ⟨?_, ?_, fun b => rfl⟩
  · cases av <;> simp [fireInteract, hnothing]
  · have hstep : doFireLoop p (fuel + 1) av s =
        match fireStep p av s with
        | .brk u => (u, false)
        | .ret u => (u, true)
        | .cont u => doFireLoop p fuel false u := rfl
    rw [hstep, hcont]

def sC3 : FS :=
  { b := { boltTest with
      affects_nothing := true
      range := 5
      target := ⟨9, 9⟩
      thrower := .killYouMissile }
    w := worldTest }

theorem fireStep_consumption_witness :
    ((fireInteract pTest true sC3).b.range_used
        = sC3.b.range_used + (if true then 0 else 1))
    ∧ doFireLoop pTest 4 true sC3
        = doFireLoop pTest 3 false (contState (fireStep pTest true sC3) sC3)
    ∧ ∀ b : Bolt, doFireAvoidSelf b
        = (!b.aimed_at_feet && (!b.is_explosion || !b.in_explosion_phase)) :=
  fireStep_consumption pTest true sC3 3
    (contState (fireStep pTest true sC3) sC3) (by decide) rfl

/-! ## Claim C6: digging through walls -/

def wDig : World :=
  { worldTest with grd := fun c =>
      if c = ⟨2, 1⟩ || c = ⟨3, 1⟩ then .rockWall else .floor }

def sDig : FS :=
  { b := { boltTest with
      flavour := .digging
      real_flavour := .digging
      source := ⟨1, 1⟩
      target := ⟨4, 1⟩
      range := 5
      is_beam := true
      thrower := .killYouMissile }
    w := wDig }

/-- C6 counterexample: a live digging beam fired into a run of two
diggable rock walls converts BOTH wall cells to floor in one firing and
exits with range_used = 5 spent on travel — the remaining range is not
consumed at the first dug cell and the effect continues past it,
refuting "converts exactly that one wall cell ... and the effect's
entire remaining range is consumed on that step". -/
theorem doFire_digging_digs_through :
    (doFire pTest 10 sDig).w.grd ⟨2, 1⟩ = Feat.floor
    ∧ (doFire pTest 10 sDig).w.grd ⟨3, 1⟩ = Feat.floor
    ∧ sDig.w.grd ⟨2, 1⟩ = Feat.rockWall
    ∧ sDig.w.grd ⟨3, 1⟩ = Feat.rockWall
    ∧ (doFire pTest 10 sDig).b.range_used = 5 := by decide

/-- C6 (amended): a live digging-flavoured effect at a diggable (rock)
wall cell converts that cell to open ground and does NOT consume the
remaining range there — the effect keeps travelling (range is spent only
by the normal per-step consumption); the entire remaining range is
consumed only when the effect meets a non-diggable wall. -/
theorem diggingWallEffect_rock (p : Params) (s : FS)
    (h : s.w.grd s.b.pos = .rockWall ∨ s.w.grd s.b.pos = .clearRockWall) :
    (diggingWallEffect p s).w.grd (diggingWallEffect p s).b.pos = .floor
    ∧ (diggingWallEffect p s).w.grd s.b.pos = .floor
    ∧ (diggingWallEffect p s).b.range_used = s.b.range_used
    ∧ (diggingWallEffect p s).b.range = s.b.range
    ∧ (diggingWallEffect p s).b.pos = s.b.pos := by
  have hcond : (s.w.grd s.b.pos = Feat.rockWall
      || s.w.grd s.b.pos = Feat.clearRockWall) = true := by
    rcases h with h | h <;> simp [h]
  simp only [diggingWallEffect]
  rw [if_pos hcond]
  split <;> simp [Bolt.pos]

theorem diggingWallEffect_stone (p : Params) (s : FS)
    (h : s.w.grd s.b.pos = .stoneWall) :
    (diggingWallEffect p s).w = s.w
    ∧ (diggingWallEffect p s).b.range_used = s.b.range
    ∧ (diggingWallEffect p s).b.range = s.b.range
    ∧ (diggingWallEffect p s).b.pos = s.b.pos := by
  have hcond : (s.w.grd s.b.pos = Feat.rockWall
      || s.w.grd s.b.pos = Feat.clearRockWall) = false := by simp [h]
  simp only [diggingWallEffect]
  rw [if_neg (by simp [hcond])]
  rw [if_pos (by simp [h, Feat.isWall])]
  simp [Bolt.finishBeam, Bolt.pos]

/-- C6 (amended): a live digging-flavoured effect at a diggable (rock)
wall cell converts that cell to open ground and does NOT consume the
remaining range there — the effect keeps travelling (range is spent only
by the normal per-step consumption); the entire remaining range is
consumed only when the effect meets a non-diggable wall. -/
theorem affectWall_digging (p : Params) (s : FS)
    (htr : s.b.is_tracer = false) (hfl : s.b.flavour = .digging) :
    ((s.w.grd s.b.pos = .rockWall ∨ s.w.grd s.b.pos = .clearRockWall) →
      (affectWall p s).w.grd s.b.pos = .floor
      ∧ (affectWall p s).b.range_used = s.b.range_used)
    ∧ (s.w.grd s.b.pos = .stoneWall →
      (affectWall p s).b.range_used = s.b.range) := by
  constructor
  · intro hrock
    have hd := diggingWallEffect_rock p s hrock
    simp only [affectWall, htr, hfl, Bool.false_eq_true, if_false, if_true,
      reduceCtorEq, reduceIte]
    rw [hd.1]
    simp only [Feat.isSolid, Feat.isWall, Bool.false_eq_true, if_false]
    exact ⟨hd.2.1, hd.2.2.1⟩
  · intro hstone
    have hd := diggingWallEffect_stone p s hstone
    simp only [affectWall, htr, hfl, Bool.false_eq_true, if_false, if_true,
      reduceCtorEq, reduceIte]
    rw [hd.1, hd.2.2.2, hstone]
    simp only [Feat.isSolid, Feat.isWall, if_true, Bolt.finishBeam]
    exact hd.2.2.1

def sDigOne : FS :=
  { b := { boltTest with
      flavour := .digging
      real_flavour := .digging
      ray := ⟨fun n => ⟨(n : Int) + 1, 1⟩, 1⟩
      range := 5
      thrower := .killYouMissile }
    w := wDig }

/-! ## Claim C1: tracer runs never touch the world

The lemmas below push the invariant "a tracer run leaves the world
untouched (and stays a tracer)" through every function reachable from a
tracer firing.  Functions only reachable in live mode (the wall effects,
liveAffectPlayerDamage, liveAffectMonster, ...) are behind is_tracer
guards and need no lemma. -/

theorem tr_bounceStep (p : Params) (s : FS) (h : s.b.is_tracer = true) :
    (bounceStep p s).w = s.w ∧ (bounceStep p s).b.is_tracer = true := by
  simp only [bounceStep]
  split <;> simp_all

theorem tr_affectWall (p : Params) (s : FS) (h : s.b.is_tracer = true) :
    affectWall p s = s := by
  simp [affectWall, h]

set_option maxHeartbeats 1000000 in
theorem tr_hitWall (p : Params) (s : FS) (h : s.b.is_tracer = true) :
    (hitWall p s).2.w = s.w ∧ (hitWall p s).2.b.is_tracer = true := by
  simp only [hitWall, FS.answer]
  repeat' split
  all_goals
    simp_all [FS.answer, tr_affectWall, tr_bounceStep, Bolt.finishBeam]

theorem tr_fuzzInvisTracer (p : Params) (s : FS)
    (h : s.b.is_tracer = true) :
    (fuzzInvisTracer p s).2.w = s.w
    ∧ (fuzzInvisTracer p s).2.b.is_tracer = true := by
  simp only [fuzzInvisTracer]
  repeat' split
  all_goals simp_all [FS.randRange, Bolt.finishBeam]

theorem tr_reflectStep (p : Params) (s : FS) (h : s.b.is_tracer = true) :
    (reflectStep p s).w = s.w ∧ (reflectStep p s).b.is_tracer = true := by
  simp only [reflectStep]
  simp_all [Bolt.finishBeam]

theorem tr_tracerAffectPlayer (p : Params) (s : FS)
    (h : s.b.is_tracer = true) :
    (tracerAffectPlayer p s).w = s.w
    ∧ (tracerAffectPlayer p s).b.is_tracer = true := by
  simp only [tracerAffectPlayer]
  repeat' split
  all_goals simp_all [FS.answer, tr_fuzzInvisTracer, Bolt.finishBeam]

theorem tr_affectPlayerEnchantment (p : Params) (s : FS)
    (h : s.b.is_tracer = true) :
    (affectPlayerEnchantment p s).w = s.w
    ∧ (affectPlayerEnchantment p s).b.is_tracer = true := by
  simp only [affectPlayerEnchantment]
  repeat' split
  all_goals simp_all [FS.rand, Bolt.finishBeam]

theorem tr_affectPlayer (p : Params) (s : FS) (h : s.b.is_tracer = true) :
    (affectPlayer p s).w = s.w ∧ (affectPlayer p s).b.is_tracer = true := by
  simp only [affectPlayer]
  repeat' split
  all_goals simp_all [tr_tracerAffectPlayer, Bolt.finishBeam]

theorem tr_updateHurtOrHelped (p : Params) (mi : Nat) (s : FS)
    (h : s.b.is_tracer = true) :
    (updateHurtOrHelped p mi s).w = s.w
    ∧ (updateHurtOrHelped p mi s).b.is_tracer = true := by
  simp only [updateHurtOrHelped]
  repeat' split
  all_goals simp_all [Bolt.finishBeam]

theorem tr_diceRollN (p : Params) (num : Nat) (size : Int) (s : FS) :
    (diceRollN p num size s).2.w = s.w
    ∧ (diceRollN p num size s).2.b = s.b := by
  induction num generalizing s with
  | zero => simp [diceRollN]
  | succ n ih =>
    simp only [diceRollN, FS.rand]
    exact ih _

theorem tr_diceRoll (p : Params) (d : DiceDef) (s : FS) :
    (diceRoll p d s).2.w = s.w ∧ (diceRoll p d s).2.b = s.b :=
  tr_diceRollN p d.num.toNat d.size s

theorem tr_ddSubmerged (p : Params) (mi : Nat) (a : Int) (s : FS) :
    (ddSubmerged p mi a s).2.2.w = s.w
    ∧ (ddSubmerged p mi a s).2.2.b.is_tracer = s.b.is_tracer := by
  simp only [ddSubmerged]
  split_ifs <;> simp_all [Bolt.finishBeam]

set_option maxHeartbeats 1000000 in
theorem tr_ddCore (p : Params) (mi : Nat) (a : Int) (s : FS)
    (h : s.b.is_tracer = true) :
    (ddCore p mi a s).2.w = s.w
    ∧ (ddCore p mi a s).2.b.is_tracer = true := by
  have hdd := tr_ddSubmerged p mi (applyDmgFuncs p.dmgFuncs (mi : Int) a).1 s
  simp only [ddCore]
  split_ifs <;> simp_all [FS.rand, Bolt.finishBeam]

theorem tr_determineDamage (p : Params) (mi : Nat) (s : FS)
    (h : s.b.is_tracer = true) :
    (determineDamage p mi s).2.w = s.w
    ∧ (determineDamage p mi s).2.b.is_tracer = true := by
  simp only [determineDamage]
  split
  · exact ⟨rfl, h⟩
  · simp only [h, eq_self_iff_true, if_true]
    exact tr_ddCore p mi _ s h

theorem tr_handleStopAttackPrompt (p : Params) (mi : Nat) (s : FS)
    (h : s.b.is_tracer = true) :
    (handleStopAttackPrompt p mi s).w = s.w
    ∧ (handleStopAttackPrompt p mi s).b.is_tracer = true := by
  simp only [handleStopAttackPrompt]
  repeat' split
  all_goals simp_all [FS.answer, Bolt.finishBeam]

theorem tr_tracerEnchantmentAffectMonster (p : Params) (mi : Nat) (s : FS)
    (h : s.b.is_tracer = true) :
    (tracerEnchantmentAffectMonster p mi s).w = s.w
    ∧ (tracerEnchantmentAffectMonster p mi s).b.is_tracer = true := by
  simp only [tracerEnchantmentAffectMonster]
  repeat' split
  all_goals simp_all [tr_handleStopAttackPrompt, Bolt.finishBeam]

theorem tr_tracerNonenchantmentAffectMonster (p : Params) (mi : Nat)
    (s : FS) (h : s.b.is_tracer = true) :
    (tracerNonenchantmentAffectMonster p mi s).w = s.w
    ∧ (tracerNonenchantmentAffectMonster p mi s).b.is_tracer = true := by
  simp only [tracerNonenchantmentAffectMonster]
  have hdd := tr_determineDamage p mi s h
  repeat' split
  all_goals simp_all [tr_handleStopAttackPrompt, Bolt.finishBeam]

theorem tr_tracerAffectMonster (p : Params) (mi : Nat) (s : FS)
    (h : s.b.is_tracer = true) :
    (tracerAffectMonster p mi s).w = s.w
    ∧ (tracerAffectMonster p mi s).b.is_tracer = true := by
  simp only [tracerAffectMonster]
  repeat' split
  all_goals simp_all [tr_tracerEnchantmentAffectMonster,
    tr_tracerNonenchantmentAffectMonster, Bolt.finishBeam]

theorem tr_affectMonster (p : Params) (mi : Nat) (s : FS)
    (h : s.b.is_tracer = true) :
    (affectMonster p mi s).w = s.w
    ∧ (affectMonster p mi s).b.is_tracer = true := by
  simp only [affectMonster]
  repeat' split
  all_goals simp_all [tr_tracerAffectMonster, Bolt.finishBeam]

theorem tr_fakeFlavour (p : Params) (s : FS) (h : s.b.is_tracer = true) :
    (fakeFlavour p s).w = s.w ∧ (fakeFlavour p s).b.is_tracer = true := by
  simp only [fakeFlavour]
  repeat' split
  all_goals simp_all [FS.rand, Bolt.finishBeam]

theorem tr_affectGround (p : Params) (s : FS) (h : s.b.is_tracer = true) :
    affectGround p s = s := by
  simp only [affectGround]
  repeat' split
  all_goals simp_all [Bolt.finishBeam]

theorem tr_acWallPhase (p : Params) (am : Bool) (s : FS)
    (h : s.b.is_tracer = true) :
    (acWallPhase p am s).2.w = s.w
    ∧ (acWallPhase p am s).2.b.is_tracer = true := by
  simp only [acWallPhase]
  repeat' split
  all_goals first
    | exact tr_hitWall p s h
    | exact ⟨(tr_hitWall p _ (tr_affectMonster p _ s h).2).1.trans
          (tr_affectMonster p _ s h).1,
        (tr_hitWall p _ (tr_affectMonster p _ s h).2).2⟩

theorem tr_acPlayerPhase (p : Params) (ap : Bool) (s : FS)
    (h : s.b.is_tracer = true) :
    (acPlayerPhase p ap s).2.w = s.w
    ∧ (acPlayerPhase p ap s).2.b.is_tracer = true := by
  simp only [acPlayerPhase]
  split
  · exact tr_affectPlayer p s h
  · exact ⟨rfl, h⟩

theorem tr_acMonsterPhase (p : Params) (hp sw am : Bool) (s : FS)
    (h : s.b.is_tracer = true) :
    (acMonsterPhase p hp sw am s).w = s.w
    ∧ (acMonsterPhase p hp sw am s).b.is_tracer = true := by
  simp only [acMonsterPhase]
  repeat' split
  all_goals first
    | exact ⟨rfl, h⟩
    | exact tr_affectMonster p _ s h

theorem tr_acPostWall (p : Params) (ap am sw : Bool) (s : FS)
    (h : s.b.is_tracer = true) :
    (acPostWall p ap am sw s).w = s.w
    ∧ (acPostWall p ap am sw s).b.is_tracer = true := by
  simp only [acPostWall]
  have h1 := tr_acPlayerPhase p ap s h
  have h2 := tr_acMonsterPhase p (acPlayerPhase p ap s).1 sw am
    (acPlayerPhase p ap s).2 h1.2
  split
  · rw [tr_affectGround p _ h2.2]
    exact ⟨h2.1.trans h1.1, h2.2⟩
  · exact ⟨h2.1.trans h1.1, h2.2⟩

set_option maxHeartbeats 1000000 in
theorem tr_affectCell (p : Params) (av : Bool) (s : FS)
    (h : s.b.is_tracer = true) :
    (affectCell p av s).w = s.w
    ∧ (affectCell p av s).b.is_tracer = true := by
  simp only [affectCell]
  generalize hs1 : (if (s.w.cloud s.b.pos).isSome then
      ({ s with b := { s.b with hit := max (s.b.hit - 2) 0 } } : FS)
    else s) = s1
  have h1 : s1.w = s.w ∧ s1.b.is_tracer = true := by
    rw [← hs1]; split <;> exact ⟨rfl, h⟩
  generalize hs2 : fakeFlavour p s1 = s2
  have h2 : s2.w = s1.w ∧ s2.b.is_tracer = true :=
    hs2 ▸ tr_fakeFlavour p s1 h1.2
  generalize hws : (if (s2.w.grd s2.b.pos).isSolid then
      acWallPhase p (av && s2.b.thrower.monKill) s2
    else ((false, s2) : Bool × FS)) = ws
  have h3 : ws.2.w = s2.w ∧ ws.2.b.is_tracer = true := by
    rw [← hws]; split
    · exact tr_acWallPhase p _ s2 h2.2
    · exact ⟨rfl, h2.2⟩
  split
  · exact ⟨h3.1.trans (h2.1.trans h1.1), h3.2⟩
  · refine ⟨(tr_acPostWall p _ _ _ ws.2 ?_).1.trans ?_,
      (tr_acPostWall p _ _ _ ws.2 ?_).2⟩
    · exact h3.2
    · exact h3.1.trans (h2.1.trans h1.1)
    · exact h3.2

theorem tr_explosionAffectCell (p : Params) (c : Coord) (s : FS)
    (h : s.b.is_tracer = true) :
    (explosionAffectCell p c s).w = s.w
    ∧ (explosionAffectCell p c s).b.is_tracer = true := by
  simp only [explosionAffectCell]
  simp_all [tr_fakeFlavour, tr_affectCell]

theorem tr_foldl (g : FS → Coord → FS)
    (hg : ∀ s c, s.b.is_tracer = true →
      (g s c).w = s.w ∧ (g s c).b.is_tracer = true) :
    ∀ (l : List Coord) (s : FS), s.b.is_tracer = true →
      (l.foldl g s).w = s.w ∧ (l.foldl g s).b.is_tracer = true := by
  intro l
  induction l with
  | nil => exact fun s h => ⟨rfl, h⟩
  | cons c rest ih =>
    intro s h
    have h1 := hg s c h
    have h2 := ih (g s c) h1.2
    exact ⟨h2.1.trans h1.1, h2.2⟩

theorem tr_explodeCore (p : Params) (r : Nat) (s : FS)
    (h : s.b.is_tracer = true) :
    (explodeCore p r s).w = s.w
    ∧ (explodeCore p r s).b.is_tracer = true := by
  simp only [explodeCore]
  rw [if_neg (by simp [h])]
  refine tr_foldl _ (fun t c ht => ?_) _ s h
  split
  · exact tr_explosionAffectCell p _ t ht
  · exact ⟨rfl, ht⟩

theorem tr_explode (p : Params) (s : FS) (h : s.b.is_tracer = true) :
    (explode p s).w = s.w ∧ (explode p s).b.is_tracer = true := by
  simp only [explode]
  repeat' split
  all_goals first
    | exact ⟨rfl, h⟩
    | (refine ⟨(tr_explodeCore p _ _ ?_).1, (tr_explodeCore p _ _ ?_).2⟩ <;>
        exact h)

theorem tr_dropObject (s : FS) (h : s.b.is_tracer = true) :
    dropObject s = s := by
  simp [dropObject, h]

set_option maxHeartbeats 1000000 in
theorem tr_affectEndpoint (p : Params) (s : FS)
    (h : s.b.is_tracer = true) :
    (affectEndpoint p s).w = s.w
    ∧ (affectEndpoint p s).b.is_tracer = true := by
  simp only [affectEndpoint]
  rw [show (if s.b.drop_item && s.b.hasItem then dropObject s else s) = s by
    split
    · exact tr_dropObject s h
    · rfl]
  split
  · refine ⟨(tr_explode p _ ?_).1.trans ?_, (tr_explode p _ ?_).2⟩
    · simpa [refineForExplosion] using h
    · simp [refineForExplosion]
    · simpa [refineForExplosion] using h
  · exact ⟨rfl, h⟩

theorem initialiseFire_is_tracer (p : Params) (s : FS) :
    (initialiseFire p s).b.is_tracer = s.b.is_tracer := by
  simp only [initialiseFire]
  simp only [apply_ite (fun x : Bolt => x.is_tracer)]
  simp

theorem tr_initialiseFire (p : Params) (s : FS)
    (h : s.b.is_tracer = true) :
    (initialiseFire p s).w = s.w
    ∧ (initialiseFire p s).b.is_tracer = true :=
  ⟨rfl, (initialiseFire_is_tracer p s).trans h⟩

theorem tr_fireInteract (p : Params) (av : Bool) (s : FS)
    (h : s.b.is_tracer = true) :
    (fireInteract p av s).w = s.w
    ∧ (fireInteract p av s).b.is_tracer = true := by
  simp only [fireInteract]
  repeat' split
  all_goals simp_all [tr_affectCell]

/-- The state carried by a step result. -/
def StepRes.st : StepRes → FS
  | .cont s => s
  | .brk s => s
  | .ret s => s

theorem tr_fireStepPost (p : Params) (s : FS) (h : s.b.is_tracer = true) :
    (fireStepPost p s).st.w = s.w
    ∧ (fireStepPost p s).st.b.is_tracer = true := by
  simp only [fireStepPost]
  repeat' split
  all_goals exact ⟨rfl, h⟩

theorem tr_fireStep (p : Params) (av : Bool) (s : FS)
    (h : s.b.is_tracer = true) :
    (fireStep p av s).st.w = s.w
    ∧ (fireStep p av s).st.b.is_tracer = true := by
  have hfi := tr_fireInteract p av s h
  have hpost := tr_fireStepPost p (fireInteract p av s) hfi.2
  simp only [fireStep]
  split
  · exact ⟨rfl, h⟩
  · exact ⟨hpost.1.trans hfi.1, hpost.2⟩

theorem tr_doFireLoop (p : Params) :
    ∀ (fuel : Nat) (av : Bool) (s : FS), s.b.is_tracer = true →
      (doFireLoop p fuel av s).1.w = s.w
      ∧ (doFireLoop p fuel av s).1.b.is_tracer = true := by
  intro fuel
  induction fuel with
  | zero => exact fun av s h => ⟨rfl, h⟩
  | succ n ih =>
    intro av s h
    have hf := tr_fireStep p av s h
    cases hstep : fireStep p av s with
    | brk u =>
      rw [hstep] at hf
      simpa [doFireLoop, hstep, StepRes.st] using hf
    | ret u =>
      rw [hstep] at hf
      simpa [doFireLoop, hstep, StepRes.st] using hf
    | cont u =>
      rw [hstep] at hf
      simp only [StepRes.st] at hf
      have h2 := ih false u hf.2
      simp only [doFireLoop, hstep]
      exact ⟨h2.1.trans hf.1, h2.2⟩

theorem tr_doFirePost (p : Params) (s : FS) (h : s.b.is_tracer = true) :
    (doFirePost p s).w = s.w ∧ (doFirePost p s).b.is_tracer = true := by
  simp only [doFirePost]
  generalize hs1 : (if !(p.inBounds s.b.pos) then
      ({ s with b := { s.b with ray := regressInBounds p 80 s.b.ray } } : FS)
    else s) = s1
  have h1 : s1.w = s.w ∧ s1.b.is_tracer = true := by
    rw [← hs1]; split <;> exact ⟨rfl, h⟩
  generalize hs2 : (if !s1.b.affects_nothing then affectEndpoint p s1
    else s1) = s2
  have h2 : s2.w = s1.w ∧ s2.b.is_tracer = true := by
    rw [← hs2]; split
    · exact tr_affectEndpoint p s1 h1.2
    · exact ⟨rfl, h1.2⟩
  rw [if_pos (by simp [h2.2])]
  exact ⟨h2.1.trans h1.1, h2.2⟩

theorem tr_doFireRay (p : Params) (s : FS) (h : s.b.is_tracer = true) :
    (doFireRay p s).w = s.w ∧ (doFireRay p s).b.is_tracer = true := by
  simp only [doFireRay]
  repeat' split
  all_goals exact ⟨rfl, h⟩

theorem tr_doFireMain (p : Params) (fuel : Nat) (s : FS)
    (h : s.b.is_tracer = true) :
    (doFireMain p fuel s).w = s.w
    ∧ (doFireMain p fuel s).b.is_tracer = true := by
  simp only [doFireMain]
  have h1 : ({ s with b := { s.b with msg_generated := false } }
      : FS).b.is_tracer = true := h
  have h2 := tr_doFireRay p _ h1
  have h3 := tr_doFireLoop p fuel (doFireAvoidSelf s.b) _ h2.2
  split
  · exact ⟨h3.1.trans h2.1, h3.2⟩
  · refine ⟨(tr_doFirePost p _ ?_).1.trans ?_, (tr_doFirePost p _ ?_).2⟩
    · exact h3.2
    · exact h3.1.trans h2.1
    · exact h3.2

theorem tr_doFire (p : Params) (fuel : Nat) (s : FS)
    (h : s.b.is_tracer = true) :
    (doFire p fuel s).w = s.w ∧ (doFire p fuel s).b.is_tracer = true := by
  have hinit := tr_initialiseFire p s h
  simp only [doFire]
  split
  · exact hinit
  · refine ⟨(tr_doFireMain p fuel _ ?_).1.trans hinit.1,
      (tr_doFireMain p fuel _ ?_).2⟩ <;> exact hinit.2

theorem tr_fire (p : Params) (fuel : Nat) (s : FS)
    (h : s.b.is_tracer = true) :
    (fire p fuel s).w = s.w ∧ (fire p fuel s).b.is_tracer = true := by
  simp only [fire]
  rw [if_pos (show ({ s with
      b := { s.b with path_taken := ([] : List Coord) } } : FS).b.is_tracer
        = true from h)]
  have hd := tr_doFire p fuel
    { s with b := { s.b with path_taken := ([] : List Coord) } } h
  simp_all [undoTracer]

theorem tr_fire_iter (p : Params) (fuel : Nat) :
    ∀ (n : Nat) (s : FS), s.b.is_tracer = true →
      ((fun t => fire p fuel t)^[n] s).w = s.w
      ∧ ((fun t => fire p fuel t)^[n] s).b.is_tracer = true := by
  intro n
  induction n with
  | zero => exact fun s h => ⟨rfl, h⟩
  | succ m ih =>
    intro s h
    have h1 := tr_fire p fuel s h
    have h2 := ih (fire p fuel s) h1.2
    rw [Function.iterate_succ_apply]
    exact ⟨h2.1.trans h1.1, h2.2⟩

/-- C1: a tracer firing is side-effect-free and repeatable: fire on a
tracer bolt leaves the world (terrain grid, blood, clouds, occupant
registry and health, player health, items, pet target) unchanged; re-running
the same tracer fire on the world left behind by the first run is the very
same computation (identical predictions for the same inputs and streams);
and any number of repeated tracer firings still leaves the world
unchanged. -/
theorem tracer_fire_side_effect_free (p : Params) (fuel : Nat) (s : FS)
    (h : s.b.is_tracer = true) :
    (fire p fuel s).w = s.w
    ∧ fire p fuel { s with w := (fire p fuel s).w } = fire p fuel s
    ∧ ∀ n : Nat, ((fun t => fire p fuel t)^[n] s).w = s.w := by
  have h1 := tr_fire p fuel s h
  refine ⟨h1.1, ?_, fun n => (tr_fire_iter p fuel n s h).1⟩
  rw [h1.1]

def sTracer : FS :=
  { b := { boltTest with
      is_tracer := true
      source := ⟨1, 1⟩
      target := ⟨4, 1⟩
      range := 3
      thrower := .killYouMissile }
    w := worldTest }

theorem tracer_fire_side_effect_free_witness :
    (fire pTest 8 sTracer).w = sTracer.w
    ∧ fire pTest 8 { sTracer with w := (fire pTest 8 sTracer).w }
        = fire pTest 8 sTracer
    ∧ ∀ n : Nat, ((fun t => fire pTest 8 t)^[n] sTracer).w = sTracer.w :=
  tracer_fire_side_effect_free pTest 8 sTracer rfl

theorem affectWall_digging_witness :
    ((sDigOne.w.grd sDigOne.b.pos = .rockWall
        ∨ sDigOne.w.grd sDigOne.b.pos = .clearRockWall) →
      (affectWall pTest sDigOne).w.grd sDigOne.b.pos = .floor
      ∧ (affectWall pTest sDigOne).b.range_used = sDigOne.b.range_used)
    ∧ (sDigOne.w.grd sDigOne.b.pos = .stoneWall →
      (affectWall pTest sDigOne).b.range_used = sDigOne.b.range) :=
  affectWall_digging pTest sDigOne rfl rfl

/-! ## Claim C2: range accounting

The range budget (`range`) and the consumed range (`range_used`) change
at these sites only: the loop's own +1, bounce's +2 (and chaos's matching
budget refund, which only grows `range`), the cloud-cancelling +5, the
on-hit cost `range_used_on_hit` (non-negative whenever the installed
range hooks keep non-negative costs non-negative), and `finish_beam`,
which clamps `range_used` to the (never shrinking) budget.  The relation
RS captures this contract per function. -/

/-- The per-function range-accounting contract: the budget never shrinks,
and the consumed range either grew or was set to at least the old budget
(finish_beam). -/
def RS (s t : FS) : Prop :=
  s.b.range ≤ t.b.range
  ∧ (s.b.range_used ≤ t.b.range_used ∨ s.b.range ≤ t.b.range_used)

/-- The range_funcs hooks keep non-negative costs non-negative (true of
the hooks the source installs; hook bodies live outside beam.cc). -/
def rangeHooksNonneg (p : Params) : Prop :=
  ∀ f ∈ p.rangeFuncs, ∀ v u : Int, 0 ≤ u → 0 ≤ (f v u).1

theorem RS.refl (s : FS) : RS s s := ⟨le_rfl, Or.inl le_rfl⟩

theorem RS.trans {s t u : FS} (h1 : RS s t) (h2 : RS t u) : RS s u := by
  obtain ⟨hr1, hu1⟩ := h1
  obtain ⟨hr2, hu2⟩ := h2
  refine ⟨hr1.trans hr2, ?_⟩
  rcases hu2 with h' | h'
  · rcases hu1 with h | h
    · exact Or.inl (h.trans h')
    · exact Or.inr (h.trans h')
  · exact Or.inr (hr1.trans h')

theorem RS.eqb {s t : FS} (hr : t.b.range = s.b.range)
    (hu : t.b.range_used = s.b.range_used) : RS s t :=
  ⟨le_of_eq hr.symm, Or.inl (le_of_eq hu.symm)⟩

theorem RS.addc {s t : FS} (hr : t.b.range = s.b.range) (c : Int)
    (hc : 0 ≤ c) (hu : t.b.range_used = s.b.range_used + c) : RS s t :=
  ⟨le_of_eq hr.symm, Or.inl (by omega)⟩

theorem RS.fin {s t : FS} (hr : t.b.range = s.b.range)
    (hu : t.b.range_used = s.b.range) : RS s t :=
  ⟨le_of_eq hr.symm, Or.inr (le_of_eq hu.symm)⟩

theorem RS.mono {s t : FS} (h : RS s t)
    (hinv : s.b.range_used ≤ s.b.range) :
    s.b.range_used ≤ t.b.range_used := by
  rcases h.2 with h' | h'
  · exact h'
  · exact hinv.trans h'

/-- Extend an RS chain by a tail that does not touch the range fields. -/
theorem RS.tail {s t u : FS} (h1 : RS s t) (hr : u.b.range = t.b.range)
    (hu : u.b.range_used = t.b.range_used) : RS s u :=
  RS.trans h1 (RS.eqb hr hu)

/-- Extend an RS chain by a tail that adds a non-negative range cost. -/
theorem RS.tailAdd {s t u : FS} (h1 : RS s t) (c : Int)
    (hr : u.b.range = t.b.range)
    (hu : u.b.range_used = t.b.range_used + c) (hc : 0 ≤ c) : RS s u :=
  RS.trans h1 (RS.addc hr c hc hu)

/-- Extend an RS chain by a finish_beam tail. -/
theorem RS.tailFin {s t u : FS} (h1 : RS s t)
    (hr : u.b.range = t.b.range) (hu : u.b.range_used = t.b.range) :
    RS s u :=
  RS.trans h1 (RS.fin hr hu)

/-- Transitivity with the second (anchoring) step first. -/
theorem RS.comp {s t u : FS} (h2 : RS t u) (h1 : RS s t) : RS s u :=
  RS.trans h1 h2

/-- Anchor-first composition whose head does not touch the range
fields. -/
theorem RS.compEq {s t u : FS} (h2 : RS t u)
    (hr : t.b.range = s.b.range) (hu : t.b.range_used = s.b.range_used) :
    RS s u :=
  RS.trans (RS.eqb hr hu) h2

theorem rangeUsedOnHitBase_nonneg (b : Bolt) :
    0 ≤ b.rangeUsedOnHitBase := by
  simp only [Bolt.rangeUsedOnHitBase]
  repeat' split
  all_goals simp [BEAM_STOP]

theorem applyRangeFuncs_nonneg (fs : List (Int → Int → Int × Bool))
    (hfs : ∀ f ∈ fs, ∀ v u : Int, 0 ≤ u → 0 ≤ (f v u).1) (v : Int) :
    ∀ u : Int, 0 ≤ u → 0 ≤ applyRangeFuncs fs v u := by
  induction fs with
  | nil => intro u hu; simpa [applyRangeFuncs] using hu
  | cons f rest ih =>
    intro u hu
    simp only [applyRangeFuncs]
    have h1 : 0 ≤ (f v u).1 := hfs f (by simp) v u hu
    split
    · exact h1
    · exact ih (fun g hg => hfs g (by simp [hg])) (f v u).1 h1

theorem rangeUsedOnHit_nonneg (b : Bolt) (p : Params)
    (hp : rangeHooksNonneg p) (victim : Int) :
    0 ≤ b.rangeUsedOnHit p victim := by
  simp only [Bolt.rangeUsedOnHit]
  repeat' split
  all_goals first
    | simp
    | exact rangeUsedOnHitBase_nonneg b
    | exact applyRangeFuncs_nonneg p.rangeFuncs hp victim _
        (rangeUsedOnHitBase_nonneg b)

@[simp] theorem placeCloud_b (p : Params) (ty : Nat) (c : Coord)
    (s : FS) : (placeCloud p ty c s).b = s.b := rfl

theorem rs_placeCloud (p : Params) (ty : Nat) (c : Coord) (s : FS) :
    RS s (placeCloud p ty c s) := RS.eqb rfl rfl

theorem rs_updateHurtOrHelped (p : Params) (mi : Nat) (s : FS) :
    RS s (updateHurtOrHelped p mi s) := by
  simp only [updateHurtOrHelped]
  repeat' split
  all_goals exact RS.eqb rfl rfl

theorem rs_fakeFlavour (p : Params) (s : FS) : RS s (fakeFlavour p s) := by
  simp only [fakeFlavour]
  repeat' split
  all_goals exact RS.eqb rfl rfl

theorem rs_diggingWallEffect (p : Params) (s : FS) :
    RS s (diggingWallEffect p s) := by
  simp only [diggingWallEffect]
  repeat' split
  all_goals first
    | exact RS.eqb rfl rfl
    | exact RS.fin rfl rfl

theorem rs_fireWallEffect (p : Params) (s : FS) :
    RS s (fireWallEffect p s) := by
  simp only [fireWallEffect]
  repeat' split
  all_goals first
    | exact RS.eqb rfl rfl
    | exact RS.fin rfl rfl

theorem rs_nukeWallEffect (p : Params) (s : FS) :
    RS s (nukeWallEffect p s) := by
  simp only [nukeWallEffect]
  repeat' split
  all_goals first
    | exact RS.eqb rfl rfl
    | exact RS.fin rfl rfl

theorem rs_affectWall (p : Params) (s : FS) : RS s (affectWall p s) := by
  simp only [affectWall]
  repeat' split
  all_goals first
    | exact RS.refl _
    | exact RS.eqb rfl rfl
    | exact RS.fin rfl rfl
    | exact rs_diggingWallEffect p s
    | exact rs_fireWallEffect p s
    | exact rs_nukeWallEffect p s
    | exact RS.trans (rs_diggingWallEffect p s) (RS.fin rfl rfl)
    | exact RS.trans (rs_fireWallEffect p s) (RS.fin rfl rfl)
    | exact RS.trans (rs_nukeWallEffect p s) (RS.fin rfl rfl)

theorem rs_bounceStep (p : Params) (s : FS) : RS s (bounceStep p s) := by
  simp only [bounceStep]
  split
  · refine ⟨?_, Or.inl ?_⟩ <;> simp
  · exact RS.addc rfl 2 (by omega) rfl

theorem rs_reflectStep (p : Params) (s : FS) : RS s (reflectStep p s) :=
  RS.eqb rfl rfl

theorem rs_hitWall (p : Params) (s : FS) : RS s (hitWall p s).2 := by
  simp only [hitWall]
  repeat' split
  all_goals first
    | exact RS.refl _
    | exact RS.eqb rfl rfl
    | exact RS.fin rfl rfl
    | exact rs_affectWall p _
    | exact rs_bounceStep p _
    | exact RS.trans (RS.eqb rfl rfl) (rs_affectWall p _)
    | exact RS.trans (RS.eqb rfl rfl) (rs_bounceStep p _)
    | exact RS.trans (RS.eqb rfl rfl) (RS.fin rfl rfl)
    | simp_all

theorem diceRollN_b (p : Params) (num : Nat) (size : Int) :
    ∀ s : FS, (diceRollN p num size s).2.b = s.b := by
  induction num with
  | zero => intro s; rfl
  | succ n ih =>
    intro s
    simp only [diceRollN]
    rw [ih]
    rfl

@[simp] theorem diceRoll_b (p : Params) (d : DiceDef) (s : FS) :
    (diceRoll p d s).2.b = s.b := diceRollN_b p d.num.toNat d.size s

theorem rs_diceRollState (p : Params) (d : DiceDef) (s : FS) :
    RS s (diceRoll p d s).2 :=
  RS.eqb (by rw [diceRoll_b]) (by rw [diceRoll_b])

@[simp] theorem FS.rand_b (s : FS) (p : Params) (n : Int) :
    ((s.rand p n).2).b = s.b := rfl

@[simp] theorem FS.randRange_b (s : FS) (p : Params) (lo hi : Int) :
    ((s.randRange p lo hi).2).b = s.b := rfl

@[simp] theorem FS.answer_b (s : FS) (p : Params) :
    ((s.answer p).2).b = s.b := rfl

@[simp] theorem FS.deferRand_b (s : FS) (p : Params) :
    ((s.deferRand p).2).b = s.b := rfl

@[simp] theorem ite_pair_snd {α β : Type} (c : Prop) [inst : Decidable c]
    (x y : α × β) : (if c then x else y).2 = if c then x.2 else y.2 := by
  split <;> rfl

@[simp] theorem ite_FS_b (c : Prop) [inst : Decidable c] (x y : FS) :
    (if c then x else y).b = if c then x.b else y.b := by
  split <;> rfl

@[simp] theorem ite_Bolt_range (c : Prop) [inst : Decidable c]
    (x y : Bolt) :
    (if c then x else y).range = if c then x.range else y.range := by
  split <;> rfl

@[simp] theorem ite_Bolt_range_used (c : Prop) [inst : Decidable c]
    (x y : Bolt) :
    (if c then x else y).range_used
      = if c then x.range_used else y.range_used := by
  split <;> rfl

@[simp] theorem updateHurtOrHelped_range (p : Params) (mi : Nat) (s : FS) :
    (updateHurtOrHelped p mi s).b.range = s.b.range := by
  simp only [updateHurtOrHelped]
  repeat' split
  all_goals rfl

@[simp] theorem updateHurtOrHelped_range_used (p : Params) (mi : Nat)
    (s : FS) :
    (updateHurtOrHelped p mi s).b.range_used = s.b.range_used := by
  simp only [updateHurtOrHelped]
  repeat' split
  all_goals rfl

theorem fuzzInvisTracer_range (p : Params) (s : FS) :
    (fuzzInvisTracer p s).2.b.range = s.b.range := by
  simp only [fuzzInvisTracer]
  repeat' split
  all_goals rfl

theorem fuzzInvisTracer_range_used (p : Params) (s : FS) :
    (fuzzInvisTracer p s).2.b.range_used = s.b.range_used := by
  simp only [fuzzInvisTracer]
  repeat' split
  all_goals rfl

theorem rs_fuzzInvisTracer (p : Params) (s : FS) :
    RS s (fuzzInvisTracer p s).2 :=
  RS.eqb (fuzzInvisTracer_range p s) (fuzzInvisTracer_range_used p s)

set_option maxHeartbeats 1000000 in
theorem rs_tracerAffectPlayer (p : Params) (hp : rangeHooksNonneg p)
    (s : FS) : RS s (tracerAffectPlayer p s) := by
  have hn : ∀ b : Bolt, 0 ≤ b.rangeUsedOnHit p MHITYOU :=
    fun b => rangeUsedOnHit_nonneg b p hp MHITYOU
  simp only [tracerAffectPlayer]
  repeat' split
  all_goals refine ⟨?_, ?_⟩ <;>
    simp only [Bolt.finishBeam, FS.answer, fuzzInvisTracer_range,
      fuzzInvisTracer_range_used, le_refl, le_add_iff_nonneg_right, hn,
      or_true, true_or, or_self]

theorem rs_affectPlayerEnchantment (p : Params) (hp : rangeHooksNonneg p)
    (s : FS) : RS s (affectPlayerEnchantment p s) := by
  have hn : ∀ b : Bolt, 0 ≤ b.rangeUsedOnHit p MHITYOU :=
    fun b => rangeUsedOnHit_nonneg b p hp MHITYOU
  simp only [affectPlayerEnchantment]
  repeat' split
  all_goals refine ⟨?_, ?_⟩ <;>
    simp only [FS.rand, le_refl, le_add_iff_nonneg_right, hn, or_true,
      true_or, or_self]

theorem mpToHit_b (p : Params) (s : FS) : (mpToHit p s).2.b = s.b := by
  simp only [mpToHit]
  split <;> rfl

theorem rs_mpBlocked (p : Params) (s : FS) : RS s (mpBlocked p s).2 := by
  simp only [mpBlocked]
  repeat' split
  all_goals first
    | exact RS.refl _
    | exact RS.eqb rfl rfl
    | exact RS.fin rfl rfl
    | simp_all

set_option linter.unreachableTactic false in
set_option linter.unusedTactic false in
theorem rs_missesPlayer (p : Params) (s : FS) :
    RS s (missesPlayer p s).2 := by
  simp only [missesPlayer]
  repeat' split
  all_goals first
    | exact RS.refl _
    | exact RS.eqb (by rw [mpToHit_b]) (by rw [mpToHit_b])
    | exact RS.tail
        (RS.trans (RS.eqb (by rw [mpToHit_b]) (by rw [mpToHit_b]))
          (rs_mpBlocked p _))
        rfl rfl
    | simp_all

set_option maxHeartbeats 1000000 in
theorem rs_lapdCore (p : Params) (hp : rangeHooksNonneg p) (h0 : Int)
    (s : FS) : RS s (lapdCore p h0 s) := by
  have hn : ∀ b : Bolt, 0 ≤ b.rangeUsedOnHit p MHITYOU :=
    fun b => rangeUsedOnHit_nonneg b p hp MHITYOU
  simp only [lapdCore]
  refine ⟨?_, ?_⟩ <;> simp [le_add_iff_nonneg_right, hn]

theorem rs_liveAffectPlayerDamage (p : Params) (hp : rangeHooksNonneg p)
    (s : FS) : RS s (liveAffectPlayerDamage p s) := by
  simp only [liveAffectPlayerDamage]
  have hM : RS s (missesPlayer p
      { s with b := { s.b with msg_generated := true } }).2 :=
    RS.trans
      (RS.eqb rfl rfl :
        RS s { s with b := { s.b with msg_generated := true } })
      (rs_missesPlayer p _)
  split
  · exact hM
  · exact RS.comp (rs_lapdCore p hp _ _)
      (RS.comp (rs_diceRollState p _ _) hM)

theorem rs_affectPlayer (p : Params) (hp : rangeHooksNonneg p) (s : FS) :
    RS s (affectPlayer p s) := by
  simp only [affectPlayer]
  repeat' split
  all_goals first
    | exact RS.fin rfl rfl
    | exact RS.refl _
    | exact rs_tracerAffectPlayer p hp s
    | exact rs_affectPlayerEnchantment p hp s
    | exact rs_liveAffectPlayerDamage p hp s

theorem rs_ddSubmerged (p : Params) (mi : Nat) (d : Int) (s : FS) :
    RS s (ddSubmerged p mi d s).2.2 := by
  simp only [ddSubmerged]
  repeat' split
  all_goals first
    | exact RS.refl _
    | exact RS.fin rfl rfl

theorem rs_ddCore (p : Params) (mi : Nat) (a : Int) (s : FS) :
    RS s (ddCore p mi a s).2 := by
  simp only [ddCore]
  repeat' split
  all_goals first
    | exact RS.refl _
    | exact rs_ddSubmerged p mi _ _
    | exact RS.tail (rs_ddSubmerged p mi _ _) rfl rfl
    | simp_all

theorem rs_determineDamage (p : Params) (mi : Nat) (s : FS) :
    RS s (determineDamage p mi s).2 := by
  simp only [determineDamage]
  split
  · exact RS.refl _
  · refine RS.comp (rs_ddCore p mi _ _) ?_
    split
    · exact RS.refl _
    · exact rs_diceRollState p _ _

theorem rs_handleStopAttackPrompt (p : Params) (mi : Nat) (s : FS) :
    RS s (handleStopAttackPrompt p mi s) := by
  simp only [handleStopAttackPrompt]
  repeat' split
  all_goals first
    | exact RS.refl _
    | exact RS.eqb rfl rfl
    | exact RS.fin rfl rfl

set_option maxHeartbeats 1000000 in
theorem rs_tracerEnchantmentAffectMonster (p : Params)
    (hp : rangeHooksNonneg p) (mi : Nat) (s : FS) :
    RS s (tracerEnchantmentAffectMonster p mi s) := by
  have hn : ∀ b : Bolt, 0 ≤ b.rangeUsedOnHit p (mi : Int) :=
    fun b => rangeUsedOnHit_nonneg b p hp _
  simp only [tracerEnchantmentAffectMonster]
  repeat' split
  all_goals first
    | exact RS.compEq (rs_handleStopAttackPrompt p mi _) (by rfl) (by rfl)
    | exact RS.tailAdd
        (RS.compEq (rs_handleStopAttackPrompt p mi _) (by rfl) (by rfl))
        _ rfl rfl (hn _)
    | simp_all

set_option maxHeartbeats 2000000 in
theorem rs_tracerNonenchantmentAffectMonster (p : Params)
    (hp : rangeHooksNonneg p) (mi : Nat) (s : FS) :
    RS s (tracerNonenchantmentAffectMonster p mi s) := by
  have hn : ∀ b : Bolt, 0 ≤ b.rangeUsedOnHit p (mi : Int) :=
    fun b => rangeUsedOnHit_nonneg b p hp _
  simp only [tracerNonenchantmentAffectMonster]
  repeat' split
  all_goals first
    | exact rs_determineDamage p mi s
    | exact RS.comp (rs_handleStopAttackPrompt p mi _)
        (RS.tail (rs_determineDamage p mi s) (by rfl) (by rfl))
    | exact RS.tailAdd
        (RS.comp (rs_handleStopAttackPrompt p mi _)
          (RS.tail (rs_determineDamage p mi s) (by rfl) (by rfl)))
        _ rfl rfl (hn _)
    | simp_all

theorem rs_tracerAffectMonster (p : Params) (hp : rangeHooksNonneg p)
    (mi : Nat) (s : FS) : RS s (tracerAffectMonster p mi s) := by
  simp only [tracerAffectMonster]
  repeat' split
  all_goals first
    | exact RS.refl _
    | exact RS.fin rfl rfl
    | exact rs_tracerEnchantmentAffectMonster p hp mi s
    | exact rs_tracerNonenchantmentAffectMonster p hp mi s

theorem rs_attemptBlock (p : Params) (mi : Nat) (s : FS) :
    RS s (attemptBlock p mi s).2 := by
  simp only [attemptBlock]
  repeat' split
  all_goals first
    | exact RS.refl _
    | exact RS.eqb rfl rfl
    | exact RS.fin rfl rfl
    | exact RS.trans (RS.eqb rfl rfl) (rs_reflectStep p _)
    | simp_all

theorem rs_handleStatueDisintegration (p : Params) (mi : Nat) (s : FS) :
    RS s (handleStatueDisintegration p mi s).2 := by
  simp only [handleStatueDisintegration]
  split
  · refine ⟨?_, Or.inr ?_⟩ <;> simp [Bolt.finishBeam]
  · exact RS.refl _

theorem rs_enchantmentAffectMonster (p : Params) (hp : rangeHooksNonneg p)
    (mi : Nat) (s : FS) : RS s (enchantmentAffectMonster p mi s) := by
  have hn : ∀ b : Bolt, 0 ≤ b.rangeUsedOnHit p (mi : Int) :=
    fun b => rangeUsedOnHit_nonneg b p hp _
  simp only [enchantmentAffectMonster]
  split
  · exact RS.refl _
  · refine ⟨?_, Or.inl ?_⟩ <;>
      simp [le_add_iff_nonneg_right, hn]

set_option maxHeartbeats 1000000 in
theorem rs_lamPostHit (p : Params) (hp : rangeHooksNonneg p) (mi : Nat)
    (postac final : Int) (s : FS) :
    RS s (lamPostHit p mi postac final s) := by
  have hn : ∀ b : Bolt, 0 ≤ b.rangeUsedOnHit p (mi : Int) :=
    fun b => rangeUsedOnHit_nonneg b p hp _
  simp only [lamPostHit]
  refine ⟨?_, Or.inl ?_⟩ <;>
    simp [le_add_iff_nonneg_right, hn]

set_option maxHeartbeats 1000000 in
theorem rs_lamResolve (p : Params) (hp : rangeHooksNonneg p) (mi : Nat)
    (postac final : Int) (s : FS) :
    RS s (lamResolve p mi postac final s) := by
  simp only [lamResolve]
  repeat' split
  all_goals first
    | exact RS.refl _
    | exact RS.comp (rs_lamPostHit p hp mi _ _ _)
        (RS.comp (rs_attemptBlock p mi _) (RS.eqb (by simp) (by simp)))
    | exact RS.comp (rs_lamPostHit p hp mi _ _ _)
        (RS.eqb (by simp) (by simp))
    | exact RS.comp (rs_attemptBlock p mi _)
        (RS.eqb (by simp) (by simp))
    | exact RS.eqb (by simp) (by simp)
    | simp_all

set_option maxHeartbeats 2000000 in
theorem rs_liveAffectMonster (p : Params) (hp : rangeHooksNonneg p)
    (mi : Nat) (s : FS) : RS s (liveAffectMonster p mi s) := by
  have hS := rs_handleStatueDisintegration p mi s
  simp only [liveAffectMonster]
  repeat' split
  all_goals first
    | exact RS.refl _
    | exact hS
    | exact RS.tailFin hS rfl rfl
    | exact RS.trans hS (rs_enchantmentAffectMonster p hp mi _)
    | exact RS.trans hS (rs_determineDamage p mi _)
    | exact RS.comp (rs_lamResolve p hp mi _ _ _)
        (RS.trans hS (rs_determineDamage p mi _))
    | simp_all

theorem rs_affectMonster (p : Params) (hp : rangeHooksNonneg p)
    (mi : Nat) (s : FS) : RS s (affectMonster p mi s) := by
  simp only [affectMonster]
  repeat' split
  all_goals first
    | exact RS.refl _
    | exact rs_tracerAffectMonster p hp mi s
    | exact rs_liveAffectMonster p hp mi s

set_option maxHeartbeats 1000000 in
theorem rs_affectPlaceClouds (p : Params) (s : FS) :
    RS s (affectPlaceClouds p s) := by
  simp only [affectPlaceClouds]
  repeat' split
  all_goals refine ⟨?_, Or.inl ?_⟩ <;>
    simp [le_add_iff_nonneg_right]

set_option maxHeartbeats 1000000 in
theorem rs_affectGround (p : Params) (s : FS) :
    RS s (affectGround p s) := by
  simp only [affectGround]
  repeat' split
  all_goals first
    | exact RS.refl _
    | exact RS.comp (rs_affectPlaceClouds p _)
        (RS.eqb (by simp) (by simp))
    | exact RS.eqb (by simp) (by simp)
    | simp_all

theorem rs_acWallPhase (p : Params) (hp : rangeHooksNonneg p) (am : Bool)
    (s : FS) : RS s (acWallPhase p am s).2 := by
  simp only [acWallPhase]
  repeat' split
  all_goals first
    | exact rs_hitWall p _
    | exact RS.trans (rs_affectMonster p hp _ s) (rs_hitWall p _)

theorem rs_acPlayerPhase (p : Params) (hp : rangeHooksNonneg p)
    (ap : Bool) (s : FS) : RS s (acPlayerPhase p ap s).2 := by
  simp only [acPlayerPhase]
  split
  · exact rs_affectPlayer p hp s
  · exact RS.refl _

theorem rs_acMonsterPhase (p : Params) (hp : rangeHooksNonneg p)
    (hpl sw am : Bool) (s : FS) :
    RS s (acMonsterPhase p hpl sw am s) := by
  simp only [acMonsterPhase]
  repeat' split
  all_goals first
    | exact RS.refl _
    | exact rs_affectMonster p hp _ s

theorem rs_acPostWall (p : Params) (hp : rangeHooksNonneg p)
    (ap am sw : Bool) (s : FS) : RS s (acPostWall p ap am sw s) := by
  simp only [acPostWall]
  have h1 := rs_acPlayerPhase p hp ap s
  have h2 := rs_acMonsterPhase p hp (acPlayerPhase p ap s).1 sw am
    (acPlayerPhase p ap s).2
  split
  · exact RS.trans (RS.trans h1 h2) (rs_affectGround p _)
  · exact RS.trans h1 h2

set_option maxHeartbeats 1000000 in
theorem rs_affectCell (p : Params) (hp : rangeHooksNonneg p) (av : Bool)
    (s : FS) : RS s (affectCell p av s) := by
  simp only [affectCell]
  generalize hs1 : (if (s.w.cloud s.b.pos).isSome then
      ({ s with b := { s.b with hit := max (s.b.hit - 2) 0 } } : FS)
    else s) = s1
  have h1 : RS s s1 := by
    rw [← hs1]; split <;> exact RS.eqb rfl rfl
  generalize hs2 : fakeFlavour p s1 = s2
  have h2 : RS s1 s2 := hs2 ▸ rs_fakeFlavour p s1
  generalize hws : (if (s2.w.grd s2.b.pos).isSolid then
      acWallPhase p (av && s2.b.thrower.monKill) s2
    else ((false, s2) : Bool × FS)) = ws
  have h3 : RS s2 ws.2 := by
    rw [← hws]; split
    · exact rs_acWallPhase p hp _ s2
    · exact RS.refl _
  have h123 := RS.trans (RS.trans h1 h2) h3
  split
  · exact h123
  · exact RS.trans h123 (rs_acPostWall p hp _ _ _ ws.2)

theorem rs_fireInteract (p : Params) (hp : rangeHooksNonneg p) (av : Bool)
    (s : FS) : RS s (fireInteract p av s) := by
  simp only [fireInteract]
  repeat' split
  all_goals first
    | exact RS.tailAdd
        (RS.comp (rs_affectCell p hp av _) (RS.eqb (by simp) (by simp)))
        1 rfl rfl (by omega)
    | exact RS.comp (rs_affectCell p hp av _)
        (RS.eqb (by simp) (by simp))
    | exact RS.addc rfl 1 (by omega) rfl
    | exact RS.eqb rfl rfl
    | simp_all

theorem fireStepPost_st_fields (p : Params) (u : FS) :
    (fireStepPost p u).st.b.range_used = u.b.range_used
    ∧ (fireStepPost p u).st.b.range = u.b.range := by
  simp only [fireStepPost]
  repeat' split
  all_goals exact ⟨rfl, rfl⟩

theorem fireStepPost_cont (p : Params) (u t : FS)
    (h : fireStepPost p u = .cont t) :
    t.b.range_used < t.b.range := by
  simp only [fireStepPost] at h
  repeat' split at h
  all_goals first
    | (cases h; exact lt_of_not_ge (by assumption))
    | cases h

/-- C2 (amended): across the propagation loop, range_used is
monotonically non-decreasing per step (given that the installed range
hooks keep non-negative costs non-negative, and starting within budget);
the loop only continues to a next cell while range_used < range; and as
soon as the post-interaction range_used has reached range, the iteration
breaks — no further cells are visited.  However range_used CAN exceed
range at loop exit (the interaction that consumes the final range unit is
not clamped): bounce adds 2 unconditionally, and a firing aimed at the
caster's own feet exits with range_used = 1 against range = 0. -/
theorem fireStep_range_accounting (p : Params) (hp : rangeHooksNonneg p)
    (av : Bool) (s : FS) (hinv : s.b.range_used ≤ s.b.range) :
    s.b.range_used ≤ (fireStep p av s).st.b.range_used
    ∧ (∀ t, fireStep p av s = .cont t → t.b.range_used < t.b.range)
    ∧ (p.inBounds s.b.pos = true →
        (fireInteract p av s).b.range
          ≤ (fireInteract p av s).b.range_used →
        fireStep p av s = .brk (fireInteract p av s)) := by
  refine ⟨?_, ?_, ?_⟩
  · by_cases hb : (!p.inBounds s.b.pos) = true
    · simp [fireStep, hb, StepRes.st]
    · simp only [fireStep, hb, if_false, Bool.false_eq_true]
      rw [(fireStepPost_st_fields p (fireInteract p av s)).1]
      exact RS.mono (rs_fireInteract p hp av s) hinv
  · intro t ht
    by_cases hb : (!p.inBounds s.b.pos) = true
    · simp [fireStep, hb] at ht
    · simp only [fireStep, hb, if_false, Bool.false_eq_true] at ht
      exact fireStepPost_cont p _ t ht
  · intro hin hge
    simp only [fireStep]
    rw [if_neg (by simp [hin])]
    simp only [fireStepPost]
    rw [if_pos hge]

theorem fireStep_range_accounting_witness :
    (sC3.b.range_used ≤ (fireStep pTest false sC3).st.b.range_used)
    ∧ (∀ t, fireStep pTest false sC3 = .cont t →
        t.b.range_used < t.b.range)
    ∧ (pTest.inBounds sC3.b.pos = true →
        (fireInteract pTest false sC3).b.range
          ≤ (fireInteract pTest false sC3).b.range_used →
        fireStep pTest false sC3 = .brk (fireInteract pTest false sC3)) :=
  fireStep_range_accounting pTest
    (by intro f hf; simp [pTest] at hf) false sC3 (by decide)

/-- C2 counterexample: "range_used never exceeds range" is false — a
firing aimed at the caster's own feet (range set to 0 by
initialise_fire) exits the loop with range_used = 1 > range = 0: the
iteration that consumes the final unit is not clamped to the budget. -/
theorem doFire_range_used_exceeds_range :
    (doFire pTest 5 sFeet).b.range_used = 1
    ∧ (doFire pTest 5 sFeet).b.range = 0
    ∧ ¬((doFire pTest 5 sFeet).b.range_used
        ≤ (doFire pTest 5 sFeet).b.range) := by decide

/-! ## Order independence of the explosion flood fill (claim C9) -/

/-- An admissible exploration path of determine_affected_cells:
`DacReach env ord a na b n` holds when, starting at delta `a` with
arrival cost `na` (a cell passing the edge-case and blocking tests at
that cost), a chain of neighbour steps taken from the direction list
`ord` reaches delta `b` with arrival cost `n`, every intermediate cell
passing the tests at its arrival cost. -/
inductive DacReach (env : ExplEnv) (ord : List Coord) :
    Coord → Nat → Coord → Nat → Prop where
  | base (a : Coord) (na : Nat) (h : dacOut env a na = false) :
      DacReach env ord a na a na
  | step {a : Coord} {na : Nat} {b : Coord} {n : Nat} (d : Coord)
      (hp : DacReach env ord a na b n) (hd : d ∈ ord)
      (h : dacOut env (b + d) (n + dacCadd b d) = false) :
      DacReach env ord a na (b + d) (n + dacCadd b d)

/-- A cost map is sound when each entry below the INT_MAX initialisation
is the arrival cost of an admissible exploration path from the
detonation centre to a cell passing the aoe_funcs callbacks. -/
def SoundMap (env : ExplEnv) (ord : List Coord) (m : Coord → Int) : Prop :=
  ∀ c, m c = INT_MAX ∨
    ∃ b n, c = b + centre9 ∧ env.hits (env.center + b) = true
      ∧ DacReach env ord ⟨0, 0⟩ 0 b n ∧ m c = (n : Int)

/-- Completeness goal for one call of the fill: the result map covers the
endpoint of the path at its cost, or the path stepped into a cell whose
entry the result map settles at no more than the cost the path had
before that step (the skip branch of the neighbour loop). -/
def DacGoal (env : ExplEnv) (ord : List Coord) (mr : Coord → Int)
    (e : Coord) (ce : Nat) : Prop :=
  mr (e + centre9) ≤ (ce : Int)
  ∨ ∃ (b : Coord) (nb : Nat) (d : Coord),
      mr (b + d + centre9) ≤ (nb : Int)
      ∧ DacReach env ord (b + d) (nb + dacCadd b d) e ce

theorem dacOut_mono_count {env : ExplEnv} {b : Coord} {n n2 : Nat}
    (hle : n2 ≤ n) (h : dacOut env b n = false) :
    dacOut env b n2 = false := by
  unfold dacOut at h ⊢
  simp only [Bool.or_eq_false_iff, decide_eq_false_iff_not, not_lt] at h ⊢
  exact ⟨⟨⟨⟨h.1.1.1.1, le_trans (by exact_mod_cast hle) h.1.1.1.2⟩,
    h.1.1.2⟩, h.1.2⟩, h.2⟩

theorem dacOut_false_rdist {env : ExplEnv} {b : Coord} {n : Nat}
    (h : dacOut env b n = false) : ¬((9 : Int) < b.rdist) := by
  unfold dacOut at h
  simp only [Bool.or_eq_false_iff, decide_eq_false_iff_not, not_lt] at h
  exact not_lt.mpr h.1.1.1.1.1

theorem DacReach_out {env : ExplEnv} {ord : List Coord} {a : Coord}
    {na : Nat} {b : Coord} {n : Nat} (hp : DacReach env ord a na b n) :
    dacOut env b n = false := by
  cases hp with
  | base h => exact h
  | step d hp hd h => exact h

theorem DacReach_start {env : ExplEnv} {ord : List Coord} {a : Coord}
    {na : Nat} {b : Coord} {n : Nat} (hp : DacReach env ord a na b n) :
    dacOut env a na = false := by
  induction hp with
  | base h => exact h
  | step d hp hd h ih => exact ih

theorem DacReach_le {env : ExplEnv} {ord : List Coord} {a : Coord}
    {na : Nat} {b : Coord} {n : Nat} (hp : DacReach env ord a na b n) :
    na ≤ n := by
  induction hp with
  | base => exact le_refl _
  | step d hp hd h ih => omega

theorem DacReach_dirs {env : ExplEnv} {ord ord2 : List Coord}
    {a : Coord} {na : Nat} {b : Coord} {n : Nat}
    (hsub : ∀ d, d ∈ ord → d ∈ ord2)
    (hp : DacReach env ord a na b n) : DacReach env ord2 a na b n := by
  induction hp with
  | base h => exact .base _ _ h
  | step d hp hd h ih => exact .step d ih (hsub d hd) h

theorem DacReach_splice {env : ExplEnv} {ord : List Coord}
    {a : Coord} {na : Nat} {b : Coord} {n : Nat}
    (hp : DacReach env ord a na b n) :
    ∀ {r0 : Coord} {n0 na2 : Nat}, DacReach env ord r0 n0 a na2 →
      na2 ≤ na → DacReach env ord r0 n0 b (n - na + na2) := by
  induction hp with
  | base h =>
      intro r0 n0 na2 hq hle
      simpa [Nat.sub_self] using hq
  | step d hp hd h ih =>
      intro r0 n0 na2 hq hle
      have hna := DacReach_le hp
      rw [Nat.sub_add_comm hna, Nat.add_right_comm]
      exact .step d (ih hq hle) hd (dacOut_mono_count (by omega) h)

theorem DacReach_head {env : ExplEnv} {ord : List Coord} {a : Coord}
    {na : Nat} {b : Coord} {n : Nat} (hp : DacReach env ord a na b n) :
    (b = a ∧ n = na) ∨
    ∃ d, d ∈ ord ∧ dacOut env (a + d) (na + dacCadd a d) = false ∧
      DacReach env ord (a + d) (na + dacCadd a d) b n := by
  induction hp with
  | base h => exact Or.inl ⟨rfl, rfl⟩
  | step d hp hd h ih =>
      rcases ih with ⟨rfl, rfl⟩ | ⟨d0, hd0, h0, hsuf⟩
      · exact Or.inr ⟨d, hd, h, .base _ _ h⟩
      · exact Or.inr ⟨d0, hd0, h0, .step d hsuf hd h⟩

theorem dacWrite_le (env : ExplEnv) (m : Coord → Int) (delta : Coord)
    (count : Nat) (c : Coord) : dacWrite env m delta count c ≤ m c := by
  unfold dacWrite
  split
  · simp only []
    by_cases hc : c = delta + centre9
    · rw [if_pos hc, hc]
      exact min_le_right _ _
    · rw [if_neg hc]
  · exact le_refl _

theorem dacWrite_write {env : ExplEnv} {m : Coord → Int} {delta : Coord}
    {count : Nat} (hh : env.hits (env.center + delta) = true) :
    dacWrite env m delta count (delta + centre9) ≤ (count : Int) := by
  unfold dacWrite
  rw [if_pos hh, if_pos rfl]
  exact min_le_left _ _

theorem dacWrite_sound {env : ExplEnv} {ord : List Coord}
    {m : Coord → Int} {delta : Coord} {count : Nat}
    (hm : SoundMap env ord m)
    (hreach : env.hits (env.center + delta) = true →
      DacReach env ord ⟨0, 0⟩ 0 delta count) :
    SoundMap env ord (dacWrite env m delta count) := by
  unfold dacWrite
  split
  · rename_i hh
    intro c
    simp only []
    by_cases hc : c = delta + centre9
    · rw [if_pos hc]
      rcases min_choice (count : Int) (m (delta + centre9)) with hmin | hmin <;>
        rw [hmin]
      · exact Or.inr ⟨delta, count, hc, hh, hreach hh, rfl⟩
      · rcases hm (delta + centre9) with h | ⟨b, n, hb, hhb, hr2, hv⟩
        · exact Or.inl h
        · exact Or.inr ⟨b, n, hc.trans hb, hhb, hr2, hv⟩
    · rw [if_neg hc]
      exact hm c
  · exact hm

theorem dac_mono_all (env : ExplEnv) (ord : List Coord) :
    (∀ (m : Coord → Int) (delta : Coord) (count : Nat) (c : Coord),
        dac env ord m delta count c ≤ m c)
    ∧ (∀ (ds : List Coord) (m : Coord → Int) (delta : Coord) (count : Nat)
        (hc : count ≤ 10 * env.r) (c : Coord),
        dacNbrs env ord ds m delta count hc c ≤ m c) := by
  refine dac.mutual_induct env ord
    (fun m delta count => ∀ c, dac env ord m delta count c ≤ m c)
    (fun ds m delta count hc => ∀ c,
      dacNbrs env ord ds m delta count hc c ≤ m c)
    ?_ ?_ ?_ ?_
  · intro m delta count hout c
    rw [dac, dif_pos hout]
  · intro m delta count hout ih c
    rw [dac, dif_neg hout]
    exact (ih c).trans (dacWrite_le env m delta count c)
  · intro m delta count hc c
    rw [dacNbrs]
  · intro m delta count hc dir rest nd m2 ih1 ih1b ih3 c
    rw [dacNbrs]
    refine (ih3 c).trans ?_
    show m2 c ≤ m c
    by_cases h9 : (9 : Int) < nd.rdist
    · simp only [m2, dif_pos h9]
      exact le_refl _
    · simp only [m2, dif_neg h9]
      by_cases hskip : m (nd + centre9) ≤ (count : Int)
      · simp only [dif_pos hskip]
        exact le_refl _
      · simp only [dif_neg hskip]
        exact ih1 c

theorem dac_sound_all (env : ExplEnv) (ord : List Coord) :
    (∀ (m : Coord → Int) (delta : Coord) (count : Nat),
        SoundMap env ord m →
        (dacOut env delta count = false →
          DacReach env ord ⟨0, 0⟩ 0 delta count) →
        SoundMap env ord (dac env ord m delta count))
    ∧ (∀ (ds : List Coord) (m : Coord → Int) (delta : Coord) (count : Nat)
        (hc : count ≤ 10 * env.r),
        SoundMap env ord m →
        DacReach env ord ⟨0, 0⟩ 0 delta count →
        (∀ d, d ∈ ds → d ∈ ord) →
        SoundMap env ord (dacNbrs env ord ds m delta count hc)) := by
  refine dac.mutual_induct env ord
    (fun m delta count => SoundMap env ord m →
      (dacOut env delta count = false →
        DacReach env ord ⟨0, 0⟩ 0 delta count) →
      SoundMap env ord (dac env ord m delta count))
    (fun ds m delta count hc => SoundMap env ord m →
      DacReach env ord ⟨0, 0⟩ 0 delta count →
      (∀ d, d ∈ ds → d ∈ ord) →
      SoundMap env ord (dacNbrs env ord ds m delta count hc))
    ?_ ?_ ?_ ?_
  · intro m delta count hout hm hreach
    rw [dac, dif_pos hout]
    exact hm
  · intro m delta count hout ih hm hreach
    rw [dac, dif_neg hout]
    exact ih (dacWrite_sound hm (fun _ => hreach (eq_false_of_ne_true hout)))
      (hreach (eq_false_of_ne_true hout)) (fun d hd => hd)
  · intro m delta count hc hm hreach hds
    rw [dacNbrs]
    exact hm
  · intro m delta count hc dir rest nd m2 ih1 ih1b ih3 hm hreach hds
    rw [dacNbrs]
    refine ih3 ?_ hreach (fun d hd => hds d (List.mem_cons_of_mem dir hd))
    show SoundMap env ord m2
    by_cases h9 : (9 : Int) < nd.rdist
    · simp only [m2, dif_pos h9]
      exact hm
    · simp only [m2, dif_neg h9]
      by_cases hskip : m (nd + centre9) ≤ (count : Int)
      · simp only [dif_pos hskip]
        exact hm
      · simp only [dif_neg hskip]
        exact ih1 hm (fun ho =>
          DacReach.step dir hreach (hds dir (List.mem_cons_self dir rest)) ho)

theorem DacGoal_mono {env : ExplEnv} {ord : List Coord}
    {m1 m2 : Coord → Int} {e : Coord} {ce : Nat}
    (hle : ∀ c, m2 c ≤ m1 c) (h : DacGoal env ord m1 e ce) :
    DacGoal env ord m2 e ce := by
  rcases h with h | ⟨b, nb, d, hb, hsuf⟩
  · exact Or.inl ((hle _).trans h)
  · exact Or.inr ⟨b, nb, d, (hle _).trans hb, hsuf⟩

theorem dac_comp_all (env : ExplEnv) (ord : List Coord) :
    (∀ (m : Coord → Int) (delta : Coord) (count : Nat),
        ∀ (e : Coord) (ce : Nat),
        DacReach env ord delta count e ce →
        env.hits (env.center + e) = true →
        DacGoal env ord (dac env ord m delta count) e ce)
    ∧ (∀ (ds : List Coord) (m : Coord → Int) (delta : Coord) (count : Nat)
        (hc : count ≤ 10 * env.r),
        ∀ (d : Coord) (e : Coord) (ce : Nat), d ∈ ds →
        DacReach env ord (delta + d) (count + dacCadd delta d) e ce →
        env.hits (env.center + e) = true →
        DacGoal env ord (dacNbrs env ord ds m delta count hc) e ce) := by
  refine dac.mutual_induct env ord
    (fun m delta count => ∀ (e : Coord) (ce : Nat),
      DacReach env ord delta count e ce →
      env.hits (env.center + e) = true →
      DacGoal env ord (dac env ord m delta count) e ce)
    (fun ds m delta count hc => ∀ (d : Coord) (e : Coord) (ce : Nat),
      d ∈ ds →
      DacReach env ord (delta + d) (count + dacCadd delta d) e ce →
      env.hits (env.center + e) = true →
      DacGoal env ord (dacNbrs env ord ds m delta count hc) e ce)
    ?_ ?_ ?_ ?_
  · intro m delta count hout e ce hp hh
    exact absurd (DacReach_start hp) (by simp [hout])
  · intro m delta count hout ih e ce hp hh
    rw [dac, dif_neg hout]
    rcases DacReach_head hp with ⟨rfl, rfl⟩ | ⟨d, hd, h0, hsuf⟩
    · exact Or.inl (le_trans
        ((dac_mono_all env ord).2 ord (dacWrite env m e ce) e ce _ _)
        (dacWrite_write hh))
    · exact ih d e ce hd hsuf hh
  · intro m delta count hc d e ce hd hp hh
    exact absurd hd (List.not_mem_nil d)
  · intro m delta count hc dir rest nd m2 ih1 ih1b ih3 d e ce hd hp hh
    rw [dacNbrs]
    rcases List.mem_cons.mp hd with rfl | hdrest
    · by_cases h9 : (9 : Int) < nd.rdist
      · exact absurd h9 (dacOut_false_rdist (DacReach_start hp))
      · by_cases hskip : m (nd + centre9) ≤ (count : Int)
        · refine Or.inr ⟨delta, count, d, ?_, hp⟩
          have h1 := (dac_mono_all env ord).2 rest m2 delta count hc
            (delta + d + centre9)
          refine h1.trans ?_
          show m2 (delta + d + centre9) ≤ (count : Int)
          simp only [m2, dif_neg h9, dif_pos hskip]
          exact hskip
        · refine DacGoal_mono
            (fun c => (dac_mono_all env ord).2 rest _ delta count hc c) ?_
          show DacGoal env ord m2 e ce
          simp only [m2, dif_neg h9, dif_neg hskip]
          exact ih1 e ce hp hh
    · exact ih3 d e ce hdrest hp hh

theorem coord_add_cancel {a b c : Coord} (h : a + c = b + c) : a = b := by
  cases a with | mk ax ay =>
  cases b with | mk bx b2 =>
  cases c with | mk cx cy =>
  have hx : ax + cx = bx + cx := congrArg (fun t => t.x) h
  have hy : ay + cy = b2 + cy := congrArg (fun t => t.y) h
  simp only [Coord.mk.injEq]
  constructor <;> omega

theorem dac_complete (env : ExplEnv) (ord : List Coord) (hr : env.r ≤ 9) :
    ∀ (ce : Nat) (e : Coord), DacReach env ord ⟨0, 0⟩ 0 e ce →
      env.hits (env.center + e) = true →
      dac env ord (fun _ => INT_MAX) ⟨0, 0⟩ 0 (e + centre9) ≤ (ce : Int) := by
  intro ce
  induction ce using Nat.strong_induction_on with
  | _ ce ih =>
  intro e hp hh
  rcases (dac_comp_all env ord).1 (fun _ => INT_MAX) ⟨0, 0⟩ 0 e ce hp hh
    with h | ⟨b, nb, d, hb, hsuf⟩
  · exact h
  · have hout2 := DacReach_start hsuf
    have hnb : nb + dacCadd b d ≤ 10 * env.r := dacOut_false_count hout2
    have hcadd := dacCadd_ge b d
    rcases (dac_sound_all env ord).1 (fun _ => INT_MAX) ⟨0, 0⟩ 0
      (fun c => Or.inl rfl) (fun ho => DacReach.base _ _ ho)
      (b + d + centre9) with hmax | ⟨b2, n2, hc2, hh2, hreach2, hval⟩
    · rw [hmax] at hb
      exfalso
      unfold INT_MAX at hb
      have h10 : nb ≤ 10 * env.r :=
        le_trans (Nat.le_add_right nb (dacCadd b d)) hnb
      omega
    · have hb2 : b2 = b + d := coord_add_cancel hc2.symm
      subst hb2
      have hn2 : n2 ≤ nb := by
        rw [hval] at hb
        exact_mod_cast hb
      have hspl := DacReach_splice hsuf hreach2
        (le_trans hn2 (Nat.le_add_right _ _))
      have hlt : ce - (nb + dacCadd b d) + n2 < ce := by
        have h1 := DacReach_le hsuf
        omega
      refine le_trans (ih _ hlt e hspl hh) ?_
      exact_mod_cast Nat.le_of_lt hlt

theorem dac_le_of_dirs (env : ExplEnv) (hr : env.r ≤ 9)
    (ord1 ord2 : List Coord) (hsub : ∀ d, d ∈ ord2 → d ∈ ord1)
    (c : Coord) :
    dac env ord1 (fun _ => INT_MAX) ⟨0, 0⟩ 0 c
      ≤ dac env ord2 (fun _ => INT_MAX) ⟨0, 0⟩ 0 c := by
  rcases (dac_sound_all env ord2).1 (fun _ => INT_MAX) ⟨0, 0⟩ 0
    (fun c2 => Or.inl rfl) (fun ho => DacReach.base _ _ ho) c
    with hmax | ⟨b, n, hc, hh, hreach, hval⟩
  · rw [hmax]
    exact (dac_mono_all env ord1).1 (fun _ => INT_MAX) ⟨0, 0⟩ 0 c
  · rw [hval, hc]
    exact dac_complete env ord1 hr n b (DacReach_dirs hsub hreach) hh

/-- A small concrete detonation environment: radius 2, a wall cell next
to the centre, all cells hit by the callbacks. -/
def envC9 : ExplEnv := {
  center := ⟨0, 0⟩
  r := 2
  mapBounds := fun c => decide (c.x.natAbs ≤ 20) && decide (c.y.natAbs ≤ 20)
  sanct := fun _ => false
  grd := fun c => if c = ⟨1, 0⟩ then Feat.rockWall else Feat.floor
  affectsWallAt := fun _ => false
  hits := fun _ => true
  stopAtStatues := true
  stopAtWalls := true }

/-- C9: for a fixed radius and fixed blocking terrain, the explosion
flood fill determine_affected_cells produces the same minimal
arrival-cost map whatever the order in which the eight compass
neighbours are explored: any two direction lists with the same members
give identical maps from the INT_MAX-initialised state at the detonation
centre (the radius hypothesis reflects the MAX_EXPLOSION_RADIUS = 9 cap
that bolt::explode applies before the fill runs). -/
theorem dac_order_independent (env : ExplEnv) (hr : env.r ≤ 9)
    (ord1 ord2 : List Coord) (hperm : ∀ d, d ∈ ord1 ↔ d ∈ ord2) :
    dac env ord1 (fun _ => INT_MAX) ⟨0, 0⟩ 0
      = dac env ord2 (fun _ => INT_MAX) ⟨0, 0⟩ 0 := by
  funext c
  exact le_antisymm
    (dac_le_of_dirs env hr ord1 ord2 (fun d hd => (hperm d).mpr hd) c)
    (dac_le_of_dirs env hr ord2 ord1 (fun d hd => (hperm d).mp hd) c)

theorem dac_order_independent_witness :
    envC9.r ≤ 9 ∧
    dac envC9 compass8 (fun _ => INT_MAX) ⟨0, 0⟩ 0
      = dac envC9 compass8.reverse (fun _ => INT_MAX) ⟨0, 0⟩ 0 :=
  ⟨by decide, dac_order_independent envC9 (by decide) compass8
    compass8.reverse (fun d => List.mem_reverse.symm)⟩

end Crawl
